import Mathlib

/-!
Verification development for the local semantic aggregation engine of the
nlp-query-interface repository (src/script.js).  The JavaScript pipeline
(`processTreeLocally`, `generateInsights`, the custom-query analyzers and
`generateDeltaAnalysis`) is shallowly embedded below: JS `Map`s become
insertion-ordered association lists (`OMap`), JS truthiness is modelled
explicitly, `Array.prototype.sort` (stable per the ECMAScript spec) is
modelled by a stable insertion sort, `Math.round` on a quotient `a / b`
becomes exact integer arithmetic, and the only impure inputs of the
pipeline (the wall clock read by `new Date().toISOString()` and the
session topic-name cache `this.topicNames`) are passed explicitly.
-/

namespace NLQ

/-! ## JS primitive helpers -/

/-- Insertion-ordered map, modelling a JS `Map`: `set` of a present key
updates the value in place (keeping the original position), `set` of an
absent key appends; iteration (`forEach`, `entries`, `values`) is list
order. -/
abbrev OMap (α β : Type) := List (α × β)

def OMap.get {α β : Type} [DecidableEq α] : OMap α β → α → Option β
  | [], _ => none
  | (k2, v) :: rest, k => if k = k2 then some v else OMap.get rest k

def OMap.set {α β : Type} [DecidableEq α] : OMap α β → α → β → OMap α β
  | [], k, v => [(k, v)]
  | (k2, v2) :: rest, k, v =>
      if k = k2 then (k, v) :: rest else (k2, v2) :: OMap.set rest k v

/-- JS truthiness of a possibly-absent number (`undefined`, `0` falsy). -/
def idTruthy : Option Int → Bool
  | none => false
  | some i => i != 0

/-- JS truthiness of a possibly-absent string (`undefined`, `""` falsy). -/
def strTruthy : Option String → Bool
  | none => false
  | some s => s != ""

/-- Whether `sub` is a prefix of `hay` (character lists). -/
def charsIsPre : List Char → List Char → Bool
  | [], _ => true
  | _ :: _, [] => false
  | a :: as, b :: bs => a == b && charsIsPre as bs

/-- Whether `sub` occurs contiguously in `hay` (character lists). -/
def charsContains (sub : List Char) : List Char → Bool
  | [] => charsIsPre sub []
  | c :: rest => charsIsPre sub (c :: rest) || charsContains sub rest

/-- JS `String.prototype.includes`. -/
def jsIncludes (s sub : String) : Bool :=
  charsContains sub.toList s.toList

/-- JS `String.prototype.toLowerCase` (ASCII, which covers the data). -/
def jsToLower (s : String) : String :=
  String.mk (s.toList.map Char.toLower)

/-- A JS number that may be the result of dividing by zero. -/
inductive JsNum where
  | num (n : Int)
  | inf
  | negInf
  | nan
deriving DecidableEq

/-- How JS renders the number into a template string. -/
def JsNum.render : JsNum → String
  | num n => toString n
  | inf => "Infinity"
  | negInf => "-Infinity"
  | nan => "NaN"

/-- JS `x > n` where `x` may be non-finite. -/
def JsNum.gtNat : JsNum → Nat → Bool
  | num m, n => (n : Int) < m
  | inf, _ => true
  | negInf, _ => false
  | nan, _ => false

/-- JS `Math.round(a / b)` for naturals with `b > 0`: `Math.round x = ⌊x + 1/2⌋`. -/
def roundDivNat (a b : Nat) : Nat := (2 * a + b) / (2 * b)

/-- JS `Math.round(a / b)` for naturals including the unguarded `b = 0` case
(`0/0` is `NaN`, `a/0` with `a > 0` is `Infinity`; `Math.round` fixes both). -/
def jsRoundDivNat (a b : Nat) : JsNum :=
  if b = 0 then (if a = 0 then JsNum.nan else JsNum.inf)
  else JsNum.num (roundDivNat a b)

/-- JS `Math.round((change / previous) * 100)` as in `generateDeltaAnalysis`;
for `previous > 0` this is `⌊(200·change + previous) / (2·previous)⌋`. -/
def jsRoundPct (change : Int) (previous : Nat) : JsNum :=
  if previous = 0 then
    (if 0 < change then JsNum.inf else if change < 0 then JsNum.negInf else JsNum.nan)
  else JsNum.num (Int.fdiv (200 * change + previous) (2 * previous))

/-- Stable descending insertion by an integer key: the new element is
placed before the first element with key `≤` its own, i.e. after every
strictly-greater key and before equal keys coming from later positions. -/
def insertDescBy {α : Type} (key : α → Int) (x : α) : List α → List α
  | [] => [x]
  | y :: ys => if key y ≤ key x then x :: y :: ys else y :: insertDescBy key x ys

/-- Stable descending sort, the unique result the ECMAScript spec fixes
for `arr.sort((a, b) => key(b) - key(a))` (sort is required stable). -/
def sortDescBy {α : Type} (key : α → Int) : List α → List α
  | [] => []
  | x :: xs => insertDescBy key x (sortDescBy key xs)

/-- Stable ascending insertion by an integer key. -/
def insertAscBy {α : Type} (key : α → Int) (x : α) : List α → List α
  | [] => [x]
  | y :: ys => if key x < key y then x :: y :: ys else y :: insertAscBy key x ys

/-- Stable ascending sort (`arr.sort((a, b) => key(a) - key(b))`). -/
def sortAscBy {α : Type} (key : α → Int) : List α → List α
  | [] => []
  | x :: xs => insertAscBy key x (sortAscBy key xs)

/-- Number of distinct values of a list (JS `new Set(list).size`). -/
def distinctCount {α : Type} [DecidableEq α] (l : List α) : Nat :=
  (l.foldl (fun acc x => if x ∈ acc then acc else acc ++ [x]) []).length

/-- Civil date (year, month, day) from days since the Unix epoch
(standard Gregorian conversion). -/
def civilFromDays (z0 : Int) : Int × Int × Int :=
  let z := z0 + 719468
  let era := Int.fdiv z 146097
  let doe := z - era * 146097
  let yoe := Int.fdiv (doe - Int.fdiv doe 1460 + Int.fdiv doe 36524 - Int.fdiv doe 146096) 365
  let y := yoe + era * 400
  let doy := doe - (365 * yoe + Int.fdiv yoe 4 - Int.fdiv yoe 100)
  let mp := Int.fdiv (5 * doy + 2) 153
  let d := doy - Int.fdiv (153 * mp + 2) 5 + 1
  let m := mp + (if mp < 10 then 3 else -9)
  (y + (if m ≤ 2 then 1 else 0), m, d)

/-- Rendering of `new Date(ts * 1000).toLocaleDateString()` for a Unix-seconds
timestamp: the locale and timezone are fixed for a running session, so it
is a pure function of the timestamp; rendered here as en-US `M/D/YYYY`
over UTC. -/
def jsLocaleDate (tsSeconds : Int) : String :=
  let days := Int.fdiv tsSeconds 86400
  let c := civilFromDays days
  let y := c.1
  let m := c.2.1
  let d := c.2.2
  s!"{m}/{d}/{y}"

/-! ## Data model (§3 of the spec, shapes taken from src/script.js) -/

/-- One raw message of the tree.  The `id` key of the message map is
dropped by `Object.values` and never read by the pipeline, so it is not
modelled. -/
structure Message where
  fromUserId : Option Int := none
  fromUserName : Option String := none
  topicId : Option Int := none
  timestamp : Option Int := none
deriving DecidableEq

/-- One entry of `tree.topics` (`name` preferred over `title`). -/
structure TopicInfo where
  name : Option String := none
  title : Option String := none
deriving DecidableEq

/-- The raw tree: `messages` and `topics` may be absent (`none`); a
present-but-empty mapping is the empty list (truthy in JS, like `{}`).
The lists carry the JS iteration order of the underlying objects. -/
structure RawTree where
  messages : Option (List Message) := none
  topics : Option (List (Int × TopicInfo)) := none
deriving DecidableEq

/-- The query request as built by `buildQueryData` (the fields the
pipeline reads; user ids are already coerced with `parseInt`, an empty
`customQuestion` models the falsy empty string). -/
structure QueryData where
  type : String
  users : List Int := []
  customQuestion : String := ""
deriving DecidableEq

structure Contributor where
  userId : Int
  username : String
  messageCount : Nat
deriving DecidableEq

structure TopicData where
  id : Int
  name : String
  messageCount : Nat
  contributorCount : Nat
  contributors : List Contributor
deriving DecidableEq

structure UserEngagement where
  averageMessagesPerUser : Nat
  averageTopicsPerUser : Nat
deriving DecidableEq

structure AggData where
  messageCount : Nat
  topicCount : Nat
  activeUsers : Nat
  topics : List TopicData
  topicsByPopularity : List TopicData
  mostDiscussedTopic : Option TopicData
  userEngagement : UserEngagement
deriving DecidableEq

structure Metadata where
  version : String
  timestamp : String
  queryType : String
  processingMethod : String
  enhanced : Bool
deriving DecidableEq

/-- The value `processTreeLocally` returns.  In the no-data branch the
code returns `data: {}`: an empty object with no count fields at all,
modelled as `none`. -/
structure ProcessResult where
  summary : String
  data : Option AggData
  insights : List String
  metadata : Metadata
deriving DecidableEq

/-- The session topic-name cache `this.topicNames`. -/
abbrev Cache := Int → Option String

def emptyCache : Cache := fun _ => none

def cacheSet (c : Cache) (k : Int) (v : String) : Cache :=
  fun i => if i = k then some v else c i

/-! ## Topic Name Resolver (extractTopicNames / getTopicName) -/

/-- The name an entry of `tree.topics` contributes: `name` if truthy,
else `title` if truthy, else nothing (the entry is skipped). -/
def pickTopicName (info : TopicInfo) : Option String :=
  if strTruthy info.name then info.name
  else if strTruthy info.title then info.title
  else none

/-- Embedding of `extractTopicNames`: fold the entries of `tree.topics` into the
session cache (additively; later entries for the same id overwrite). -/
def extractTopicNames (entries : List (Int × TopicInfo)) (c : Cache) : Cache :=
  entries.foldl
    (fun acc e =>
      match pickTopicName e.2 with
      | some nm => cacheSet acc e.1 nm
      | none => acc) c

/-- The static 10-entry fallback table of `getTopicName`. -/
def fallbackNames : List (Int × String) :=
  [(0, "General Discussion"), (1, "Technical Implementation"),
   (2, "Community Governance"), (3, "Market Analysis"),
   (4, "Product Features"), (5, "DeFi Protocols"),
   (6, "Security & Audits"), (7, "Token Economics"),
   (8, "Development Updates"), (9, "User Support")]

/-- Embedding of `getTopicName`: cached name, else fallback table, else a generated placeholder. -/
def getTopicName (c : Cache) (topicId : Int) : String :=
  match c topicId with
  | some n => n
  | none =>
      match fallbackNames.find? (fun p => p.1 == topicId) with
      | some p => p.2
      | none => s!"Topic {topicId}"

/-! ## Tree Normalizer (user filter, lines 856-864) -/

/-- Local user filtering: with a non-empty selection keep messages whose
`fromUserId` is a member (`includes`); an absent id never matches. -/
def filterMessages (q : QueryData) (messages : List Message) : List Message :=
  if q.users.length > 0 then
    messages.filter (fun m =>
      match m.fromUserId with
      | some uid => q.users.contains uid
      | none => false)
  else messages

/-! ## Aggregator accumulators (lines 866-905) -/

/-- A message that contributes to the user maps: both `fromUserId` and
`fromUserName` truthy. -/
def eligibleMsg (m : Message) : Bool :=
  idTruthy m.fromUserId && strTruthy m.fromUserName

/-- One step of the first `messages.forEach`: the `users` map
(id -> name) and the `userTopics` map (id -> insertion-ordered set of
topic ids); `userMessageCounts` is also built there but never read, so it
is not modelled. -/
def collectUserStep (acc : OMap Int String × OMap Int (List Int)) (m : Message) :
    OMap Int String × OMap Int (List Int) :=
  if eligibleMsg m then
    let uid := m.fromUserId.getD 0
    let uname := m.fromUserName.getD ""
    let users := acc.1.set uid uname
    let userTopics :=
      match m.topicId with
      | some t =>
          if t = -1 then acc.2
          else
            let cur := (acc.2.get uid).getD []
            acc.2.set uid (if t ∈ cur then cur else cur ++ [t])
      | none => acc.2
    (users, userTopics)
  else acc

def usersAndTopicsOf (messages : List Message) : OMap Int String × OMap Int (List Int) :=
  messages.foldl collectUserStep ([], [])

def usersOf (messages : List Message) : OMap Int String :=
  (usersAndTopicsOf messages).1

def userTopicsOf (messages : List Message) : OMap Int (List Int) :=
  (usersAndTopicsOf messages).2

/-- One step of the second `messages.forEach`: `topicMessageCounts` and
`topicUsers` (per-topic per-user sub-counts).  A message with sentinel
(`-1`) or absent topic id is skipped; the per-user sub-count is only
bumped for a truthy `fromUserId`. -/
def collectTopicStep (acc : OMap Int Nat × OMap Int (OMap Int Nat)) (m : Message) :
    OMap Int Nat × OMap Int (OMap Int Nat) :=
  match m.topicId with
  | some tid =>
      if tid = -1 then acc
      else
        let tmc := acc.1.set tid ((acc.1.get tid).getD 0 + 1)
        let tu0 := if (acc.2.get tid).isSome then acc.2 else acc.2.set tid []
        let tu :=
          match m.fromUserId with
          | some uid =>
              if uid = 0 then tu0
              else
                let um := (tu0.get tid).getD []
                tu0.set tid (um.set uid ((um.get uid).getD 0 + 1))
          | none => tu0
        (tmc, tu)
  | none => acc

def topicMapsOf (messages : List Message) : OMap Int Nat × OMap Int (OMap Int Nat) :=
  messages.foldl collectTopicStep ([], [])

/-! ## Topic list construction (lines 907-935) -/

/-- Contributors of one topic in map-iteration (encounter) order, before
sorting: username resolved from the user map with the `User {id}`
fallback for a falsy lookup, prefixed with `@`. -/
def contributorsUnsortedOf (users : OMap Int String) (topicUserMap : OMap Int Nat) :
    List Contributor :=
  topicUserMap.map (fun p =>
    let uid := p.1
    let base :=
      match users.get uid with
      | some n => if n = "" then "User " ++ toString uid else n
      | none => "User " ++ toString uid
    { userId := uid, username := "@" ++ base, messageCount := p.2 })

/-- Contributors sorted descending by message count (stable). -/
def contributorsOf (users : OMap Int String) (topicUserMap : OMap Int Nat) :
    List Contributor :=
  sortDescBy (fun c => (c.messageCount : Int)) (contributorsUnsortedOf users topicUserMap)

/-- The topic list in map-iteration (encounter) order, before the final
popularity sort. -/
def topicsDataUnsortedOf (cache : Cache) (tmc : OMap Int Nat)
    (tu : OMap Int (OMap Int Nat)) (users : OMap Int String) : List TopicData :=
  tmc.map (fun p =>
    let contributors := contributorsOf users ((tu.get p.1).getD [])
    { id := p.1, name := getTopicName cache p.1, messageCount := p.2,
      contributorCount := contributors.length, contributors := contributors })

/-- The `topicsData` list as `processTreeLocally` builds it from the (already
filtered) message list: accumulate, name, sort by popularity (stable). -/
def topicsDataOf (cache : Cache) (messages : List Message) : List TopicData :=
  let maps := topicMapsOf messages
  sortDescBy (fun t => (t.messageCount : Int))
    (topicsDataUnsortedOf cache maps.1 maps.2 (usersOf messages))

/-! ## Insight Generator (generateInsights and the keyword-routed
analyzers, lines 969-1045 and 1207-1490) -/

/-- The per-user total of `generateInsights` (sum over every topic of the
count of that user in the topic contributor list). -/
def userTotalMessages (topicsData : List TopicData) (uid : Int) : Nat :=
  topicsData.foldl
    (fun sum topic =>
      sum + (match topic.contributors.find? (fun c => c.userId == uid) with
             | some c => c.messageCount
             | none => 0)) 0

/-- Number of topics having the user among the contributors. -/
def userTopicCount (topicsData : List TopicData) (uid : Int) : Nat :=
  (topicsData.filter (fun topic => topic.contributors.any (fun c => c.userId == uid))).length

/-- The "Most active contributor" insight string (line 1010), emitted for
the first contributor of the first (most-discussed) topic. -/
def mostActiveInsight (topicsData : List TopicData) (topContributor : Contributor) : String :=
  let un := topContributor.username
  let tm := userTotalMessages topicsData topContributor.userId
  let tc := userTopicCount topicsData topContributor.userId
  s!"Most active contributor: {un} ({tm} messages across {tc} topics)"

/-- A common-topic record of `analyzeUserDisagreements`. -/
structure CommonTopic where
  topicId : Int
  name : String
  user1Messages : Nat
  user2Messages : Nat
  difference : Nat
deriving DecidableEq

/-- The usernames mentioned in the (lowercased) question: every known
username matched case-insensitively, directly or with `@` / `@@`. -/
def mentionedUsersOf (users : OMap Int String) (question : String) : List String :=
  (users.map Prod.snd).filter (fun username =>
    let lower := jsToLower username
    jsIncludes question lower || jsIncludes question ("@" ++ lower) ||
      jsIncludes question ("@@" ++ lower))

/-- Per-username topic->count maps over all messages with a truthy
`fromUserName` and a valid topic id. -/
def userTopicMapOf (messages : List Message) : OMap String (OMap Int Nat) :=
  messages.foldl
    (fun acc m =>
      match m.topicId with
      | some t =>
          if t = -1 then acc
          else if strTruthy m.fromUserName then
            let name := m.fromUserName.getD ""
            let cur := (acc.get name).getD []
            acc.set name (cur.set t ((cur.get t).getD 0 + 1))
          else acc
      | none => acc) []

/-- The common topics of the two users, in the map-iteration (encounter)
order of the first user. -/
def commonTopicsOf (cache : Cache) (user1Topics user2Topics : OMap Int Nat) :
    List CommonTopic :=
  user1Topics.filterMap (fun p =>
    match user2Topics.get p.1 with
    | some count2 =>
        some { topicId := p.1, name := getTopicName cache p.1,
               user1Messages := p.2, user2Messages := count2,
               difference := ((p.2 : Int) - (count2 : Int)).natAbs }
    | none => none)

/-- The engagement-difference insight (line 1312), emitted for the FIRST
common topic whose difference exceeds 2 (no sorting by difference). -/
def disagreementInsight (u1 u2 : String) (t : CommonTopic) : String :=
  let nm := t.name
  let a := t.user1Messages
  let b := t.user2Messages
  s!"Biggest engagement difference in \"{nm}\": {u1} ({a} msgs) vs {u2} ({b} msgs)"

def analyzeUserDisagreements (cache : Cache) (messages : List Message)
    (topicsData : List TopicData) (users : OMap Int String) (question : String) :
    List String :=
  let mentionedUsers := mentionedUsersOf users question
  match mentionedUsers with
  | u1 :: u2 :: _ =>
      let userTopicMap := userTopicMapOf messages
      let user1Topics := (userTopicMap.get u1).getD []
      let user2Topics := (userTopicMap.get u2).getD []
      let commonTopics := commonTopicsOf cache user1Topics user2Topics
      match commonTopics with
      | [] => [s!"Users {u1} and {u2} have not participated in the same topic discussions"]
      | _ :: _ =>
          let n := commonTopics.length
          let first := [s!"Users {u1} and {u2} both discussed {n} common topics"]
          let significantDifferences := commonTopics.filter (fun t => 2 < t.difference)
          let second :=
            match significantDifferences with
            | [] => []
            | topDifference :: _ => [disagreementInsight u1 u2 topDifference]
          let user1Focus := (sortDescBy (fun p => (p.2 : Int)) user1Topics).head?
          let user2Focus := (sortDescBy (fun p => (p.2 : Int)) user2Topics).head?
          let third :=
            match user1Focus, user2Focus with
            | some f1, some f2 =>
                if f1.1 ≠ f2.1 then
                  let t1 := getTopicName cache f1.1
                  let t2 := getTopicName cache f2.1
                  [s!"Different focus areas: {u1} primarily discusses \"{t1}\", {u2} focuses on \"{t2}\""]
                else []
            | _, _ => []
          first ++ second ++ third
  | _ =>
      ["To analyze user disagreements, please specify user names in your question (e.g., \"How do @James_T81 and @joybaruarobin differ?\")"]

def analyzeTrendingTopics (topicsData : List TopicData) : List String :=
  match topicsData with
  | [] => []
  | topTopic :: rest =>
      let nm := topTopic.name
      let mc := topTopic.messageCount
      let cc := topTopic.contributorCount
      let base := [s!"Most trending topic: \"{nm}\" with {mc} recent messages",
                   s!"Trending engagement: {cc} active contributors in this topic"]
      match rest with
      | [] => base
      | secondTopic :: _ =>
          let nm2 := secondTopic.name
          let gap : Int := (topTopic.messageCount : Int) - (secondTopic.messageCount : Int)
          base ++ [s!"Trend strength: \"{nm}\" leads by {gap} messages over \"{nm2}\""]

def analyzeUserEngagement (messages : List Message) (users : OMap Int String) :
    List String :=
  let totalMessages := messages.length
  let avgMessagesPerUser :=
    if users.length > 0 then roundDivNat totalMessages users.length else 0
  let first := [s!"Overall engagement: {avgMessagesPerUser} average messages per user"]
  let userMessageCounts : OMap String Nat :=
    messages.foldl
      (fun acc m =>
        if eligibleMsg m then
          let name := m.fromUserName.getD ""
          acc.set name ((acc.get name).getD 0 + 1)
        else acc) []
  let sortedUsers := sortDescBy (fun p => (p.2 : Int)) userMessageCounts
  match sortedUsers with
  | [] => first
  | (n1, c1) :: rest =>
      let more :=
        match rest with
        | [] => []
        | (n2, c2) :: _ => [s!"Second most engaged: @{n2} with {c2} messages"]
      first ++ [s!"Most engaged user: @{n1} with {c1} messages"] ++ more

def analyzeSentimentPatterns (messages : List Message) (topicsData : List TopicData) :
    List String :=
  let topicDiversity := topicsData.length
  let first :=
    if 5 < topicDiversity then
      [s!"High topic diversity ({topicDiversity} topics) suggests active, varied discussions",
       "Community sentiment: Engaged and diverse conversation patterns"]
    else
      [s!"Focused discussions around {topicDiversity} main topics",
       "Community sentiment: Concentrated engagement on key issues"]
  let avg := jsRoundDivNat messages.length topicDiversity
  let avgStr := avg.render
  let last :=
    if avg.gtNat 10 then [s!"High engagement intensity: {avgStr} average messages per topic"]
    else [s!"Moderate engagement: {avgStr} average messages per topic"]
  first ++ last

def analyzeConcerns (topicsData : List TopicData) : List String :=
  let concernTopics := topicsData.filter (fun topic =>
    jsIncludes topic.name ("Governance") || jsIncludes topic.name ("Technical") ||
      jsIncludes topic.name ("Security") || jsIncludes topic.name ("Audit"))
  match concernTopics with
  | [] => ["No major concern topics identified in current discussions"]
  | _ :: _ =>
      concernTopics.map (fun topic =>
        let nm := topic.name
        let mc := topic.messageCount
        let cc := topic.contributorCount
        s!"Concern area: \"{nm}\" - {mc} messages from {cc} contributors")

def analyzeProtocolDiscussions (topicsData : List TopicData) : List String :=
  let protocolTopics := topicsData.filter (fun topic =>
    jsIncludes topic.name ("DeFi") || jsIncludes topic.name ("Protocol") ||
      jsIncludes topic.name ("Token"))
  match protocolTopics with
  | [] => ["Limited protocol-specific discussions in current dataset"]
  | _ :: _ =>
      protocolTopics.map (fun topic =>
        let nm := topic.name
        let mc := topic.messageCount
        let cc := topic.contributorCount
        s!"Protocol discussion: \"{nm}\" - {mc} messages from {cc} contributors")

def analyzeTemporalPatterns (messages : List Message) : List String :=
  let withTs := messages.filter (fun m =>
    match m.timestamp with
    | some t => t != 0
    | none => false)
  match withTs with
  | [] =>
      let n := messages.length
      [s!"Temporal analysis: {n} messages available for time-based analysis"]
  | _ :: _ =>
      let sorted := sortAscBy (fun m => m.timestamp.getD 0) withTs
      let earliest := jsLocaleDate ((sorted.head?.map Message.timestamp).join.getD 0)
      let latest := jsLocaleDate ((sorted.getLast?.map Message.timestamp).join.getD 0)
      let k := (sorted.length + 3) / 4
      let recentMessages := sorted.drop (sorted.length - k)
      let recentTopics :=
        distinctCount ((recentMessages.map Message.topicId).filter (fun id => id != some (-1)))
      let rm := recentMessages.length
      [s!"Time range: {earliest} to {latest}",
       s!"Recent activity: {rm} messages across {recentTopics} topics"]

def analyzeGeneralQuestion (messages : List Message) (topicsData : List TopicData)
    (users : OMap Int String) (question : String) : List String :=
  let m := messages.length
  let t := topicsData.length
  let u := users.length
  let base := [s!"Custom analysis for: \"{question}\"",
               s!"Analyzing {m} messages across {t} topics from {u} users"]
  match topicsData with
  | [] => base
  | topTopic :: _ =>
      let nm := topTopic.name
      let mc := topTopic.messageCount
      let cc := topTopic.contributorCount
      base ++ [s!"Primary topic: \"{nm}\" with {mc} messages from {cc} contributors"]

/-- The keyword router of `generateCustomQueryInsights` (first matching
branch wins, on the lowercased question). -/
def generateCustomQueryInsights (cache : Cache) (messages : List Message)
    (topicsData : List TopicData) (users : OMap Int String) (customQuestion : String) :
    List String :=
  let question := jsToLower customQuestion
  if jsIncludes question ("differ") &&
      (jsIncludes question ("opinion") || jsIncludes question ("disagree") ||
        jsIncludes question ("preferences")) then
    analyzeUserDisagreements cache messages topicsData users question
  else if jsIncludes question ("trending") || jsIncludes question ("popular") then
    analyzeTrendingTopics topicsData
  else if jsIncludes question ("engaged") || jsIncludes question ("active") then
    analyzeUserEngagement messages users
  else if jsIncludes question ("sentiment") || jsIncludes question ("mood") then
    analyzeSentimentPatterns messages topicsData
  else if jsIncludes question ("concern") || jsIncludes question ("issue") ||
      jsIncludes question ("problem") then
    analyzeConcerns topicsData
  else if jsIncludes question ("defi") || jsIncludes question ("protocol") then
    analyzeProtocolDiscussions topicsData
  else if jsIncludes question ("when") || jsIncludes question ("time") ||
      jsIncludes question ("recent") then
    analyzeTemporalPatterns messages
  else
    analyzeGeneralQuestion messages topicsData users question

/-- The query-type-specific tail of `generateInsights` (the `switch`). -/
def querySpecificInsights (cache : Cache) (messages : List Message)
    (topicsData : List TopicData) (users : OMap Int String) (q : QueryData) :
    List String :=
  if q.type = "user_analysis" then
    (if q.users.length = 1 then ["Analysis focused on single user behavior and topic preferences"] else [])
  else if q.type = "users_analysis" then
    (if 1 < q.users.length then
      let n := q.users.length
      [s!"Comparative analysis across {n} selected users"]
     else [])
  else if q.type = "time_window" then
    ["Time-based analysis showing topic trends and activity patterns"]
  else if q.type = "version_evolution" then
    ["Evolution analysis tracking topic changes over time"]
  else if q.type = "custom_query" then
    (if q.customQuestion ≠ "" then
      let cq := q.customQuestion
      s!"Custom analysis for question: \"{cq}\"" ::
        generateCustomQueryInsights cache messages topicsData users q.customQuestion
     else ["Custom query selected but no question provided"])
  else []

/-- Embedding of `generateInsights` (lines 969-1045).  The division in the user
participation insight (line 985) is NOT guarded against `users.size = 0`,
hence the `JsNum` rendering. -/
def generateInsights (cache : Cache) (messages : List Message)
    (topicsData : List TopicData) (users : OMap Int String) (queryData : QueryData) :
    List String :=
  match topicsData with
  | [] => ["No topics identified in the conversation data"]
  | topTopic :: _ =>
      let nm := topTopic.name
      let mc := topTopic.messageCount
      let cc := topTopic.contributorCount
      let tc := topicsData.length
      let us := users.length
      let avgUser := (jsRoundDivNat messages.length users.length).render
      let avgTopic := (jsRoundDivNat messages.length topicsData.length).render
      let base :=
        [s!"Most discussed: \"{nm}\" with {mc} messages from {cc} contributors",
         s!"{tc} distinct topics identified across all conversations",
         s!"{us} users actively participating with an average of {avgUser} messages each",
         s!"Topic engagement: Average {avgTopic} messages per topic"]
      let base2 :=
        match topTopic.contributors with
        | [] => base
        | topContributor :: _ => base ++ [mostActiveInsight topicsData topContributor]
      base2 ++ querySpecificInsights cache messages topicsData users queryData

/-! ## processTreeLocally (lines 828-967) -/

/-- The no-data result of lines 835-847: `data` is the EMPTY object. -/
def noDataResult (q : QueryData) (version now : String) : ProcessResult :=
  { summary := "No data available for processing",
    data := none,
    insights := ["No messages found in the tree data"],
    metadata := { version := version, timestamp := now, queryType := q.type,
                  processingMethod := "local", enhanced := false } }

/-- Sum of the sizes of the per-user topic sets (`averageTopicsPerUser`
numerator). -/
def sumTopicSetSizes (ut : OMap Int (List Int)) : Nat :=
  ut.foldl (fun sum p => sum + p.2.length) 0

/-- The `data` record built at lines 941-954 as a function of the session
cache and the (already filtered) message list. -/
def aggDataOf (cache : Cache) (messages : List Message) : AggData :=
  let acc1 := usersAndTopicsOf messages
  let users := acc1.1
  let userTopics := acc1.2
  let topicsData := topicsDataOf cache messages
  { messageCount := messages.length, topicCount := topicsData.length,
    activeUsers := users.length,
    topics := topicsData, topicsByPopularity := topicsData.take 5,
    mostDiscussedTopic := topicsData.head?,
    userEngagement :=
      { averageMessagesPerUser :=
          if users.length > 0 then roundDivNat messages.length users.length else 0,
        averageTopicsPerUser :=
          if users.length > 0 then roundDivNat (sumTopicSetSizes userTopics) users.length
          else 0 } }

/-- The main branch of `processTreeLocally` (messages present): extract
topic names into the session cache, filter, accumulate, build topics,
insights and the result record.  `now` is the wall-clock reading of
`new Date().toISOString()`; the updated cache is returned alongside. -/
def processTreeCore (topicsField : Option (List (Int × TopicInfo))) (msgs : List Message)
    (q : QueryData) (version : String) (c : Cache) (now : String) :
    ProcessResult × Cache :=
  let cache := extractTopicNames (topicsField.getD []) c
  let messages := filterMessages q msgs
  let topicsData := topicsDataOf cache messages
  let insights := generateInsights cache messages topicsData (usersOf messages) q
  let mc := messages.length
  let tc := topicsData.length
  ({ summary := s!"Users discussing {tc} topics with {mc} total messages",
     data := some (aggDataOf cache messages),
     insights := insights,
     metadata := { version := version, timestamp := now, queryType := q.type,
                   processingMethod := "local", enhanced := false } }, cache)

/-- Embedding of `processTreeLocally`: guard for an absent tree or absent message
mapping, then the main branch.  Total by construction (never throws). -/
def processTreeLocally (treeData : Option RawTree) (q : QueryData) (version : String)
    (c : Cache) (now : String) : ProcessResult × Cache :=
  match treeData with
  | none => (noDataResult q version now, c)
  | some t =>
      match t.messages with
      | none => (noDataResult q version now, c)
      | some msgs => processTreeCore t.topics msgs q version c now

/-! ## Delta Engine (generateDeltaAnalysis, lines 1640-1679; the DOM
rendering that follows the computation is elided) -/

structure ChangedTopic where
  topic : TopicData
  change : Int
  changePercent : JsNum
  previousCount : Nat
deriving DecidableEq

structure DeltaResult where
  newTopics : List TopicData
  removedTopics : List TopicData
  changedTopics : List ChangedTopic
deriving DecidableEq

/-- Embedding of `new Map(topics.map(t => [t.id, t]))`. -/
def topicMapOfList (topics : List TopicData) : OMap Int TopicData :=
  topics.foldl (fun m t => m.set t.id t) []

def generateDeltaAnalysis (firstResults secondResults : AggData) : DeltaResult :=
  let firstTopics := topicMapOfList firstResults.topics
  let secondTopics := topicMapOfList secondResults.topics
  let newTopics := (secondTopics.filter (fun p => (firstTopics.get p.1).isNone)).map Prod.snd
  let removedTopics := (firstTopics.filter (fun p => (secondTopics.get p.1).isNone)).map Prod.snd
  let changedTopics := firstTopics.filterMap (fun p =>
    match secondTopics.get p.1 with
    | some secondTopic =>
        if secondTopic.messageCount ≠ p.2.messageCount then
          let change := (secondTopic.messageCount : Int) - (p.2.messageCount : Int)
          some { topic := secondTopic, change := change,
                 changePercent := jsRoundPct change p.2.messageCount,
                 previousCount := p.2.messageCount }
        else none
    | none => none)
  { newTopics := newTopics, removedTopics := removedTopics, changedTopics := changedTopics }

/-! ## Lemmas about the JS `Map` model -/

theorem OMap.get_set {α β : Type} [DecidableEq α] (m : OMap α β) (k k2 : α) (v : β) :
    (m.set k v).get k2 = if k2 = k then some v else m.get k2 := by
  induction m with
  | nil => simp [OMap.set, OMap.get]
  | cons hd tl ih =>
    obtain ⟨a, b⟩ := hd
    by_cases hka : k = a
    · subst hka
      by_cases h2 : k2 = k
      · subst h2; simp [OMap.set, OMap.get]
      · simp [OMap.set, OMap.get, h2]
    · by_cases h2a : k2 = a
      · subst h2a
        have h2k : k2 ≠ k := fun h => hka h.symm
        simp [OMap.set, OMap.get, hka, h2k]
      · simp [OMap.set, OMap.get, hka, h2a, ih]

theorem OMap.mem_keys_iff {α β : Type} [DecidableEq α] (m : OMap α β) (k : α) :
    k ∈ m.map Prod.fst ↔ (m.get k).isSome := by
  induction m with
  | nil => simp [OMap.get]
  | cons hd tl ih =>
    obtain ⟨a, b⟩ := hd
    by_cases hka : k = a
    · subst hka; simp [OMap.get]
    · simp [OMap.get, hka, ih]

theorem OMap.keys_set {α β : Type} [DecidableEq α] (m : OMap α β) (k : α) (v : β) :
    (m.set k v).map Prod.fst =
      if (m.get k).isSome then m.map Prod.fst else m.map Prod.fst ++ [k] := by
  induction m with
  | nil => simp [OMap.set, OMap.get]
  | cons hd tl ih =>
    obtain ⟨a, b⟩ := hd
    by_cases hka : k = a
    · subst hka; simp [OMap.set, OMap.get]
    · have : ¬ (k = a) := hka
      by_cases hs : (OMap.get tl k).isSome
      · simp [OMap.set, OMap.get, hka, hs, ih]
      · simp [OMap.set, OMap.get, hka, hs, ih]

theorem OMap.length_set {α β : Type} [DecidableEq α] (m : OMap α β) (k : α) (v : β) :
    (m.set k v).length = if (m.get k).isSome then m.length else m.length + 1 := by
  have h1 : (m.set k v).length = ((m.set k v).map Prod.fst).length := by
    rw [List.length_map]
  rw [h1, OMap.keys_set]
  by_cases hs : (OMap.get m k).isSome <;> simp [hs]

theorem OMap.nodup_keys_set {α β : Type} [DecidableEq α] (m : OMap α β) (k : α) (v : β)
    (h : (m.map Prod.fst).Nodup) : ((m.set k v).map Prod.fst).Nodup := by
  rw [OMap.keys_set]
  by_cases hs : (OMap.get m k).isSome
  · simpa [hs] using h
  · have hk : k ∉ m.map Prod.fst := fun hmem => hs ((OMap.mem_keys_iff m k).1 hmem)
    simp [hs, List.nodup_append, h, hk]

theorem OMap.get_mem {α β : Type} [DecidableEq α] (m : OMap α β) (k : α) (v : β)
    (h : m.get k = some v) : (k, v) ∈ m := by
  induction m with
  | nil => simp [OMap.get] at h
  | cons hd tl ih =>
    obtain ⟨a, b⟩ := hd
    by_cases hka : k = a
    · subst hka
      simp [OMap.get] at h
      simp [h]
    · simp [OMap.get, hka] at h
      exact List.mem_cons_of_mem _ (ih h)

theorem OMap.set_eq_append_of_get_none {α β : Type} [DecidableEq α]
    (m : OMap α β) (k : α) (v : β) (h : m.get k = none) : m.set k v = m ++ [(k, v)] := by
  induction m with
  | nil => simp [OMap.set]
  | cons hd tl ih =>
    obtain ⟨a, b⟩ := hd
    by_cases hka : k = a
    · subst hka; simp [OMap.get] at h
    · simp [OMap.get, hka] at h
      simp [OMap.set, hka, ih h]

theorem OMap.get_append {α β : Type} [DecidableEq α] (m1 m2 : OMap α β) (k : α) :
    OMap.get (m1 ++ m2) k =
      match m1.get k with
      | some v => some v
      | none => m2.get k := by
  induction m1 with
  | nil => simp [OMap.get]
  | cons hd tl ih =>
    obtain ⟨a, b⟩ := hd
    by_cases hka : k = a
    · subst hka; simp [OMap.get]
    · simp [OMap.get, hka, ih]

theorem OMap.foldl_set_of_nodup {α β : Type} [DecidableEq α]
    (l : List (α × β)) (acc : OMap α β)
    (h1 : (l.map Prod.fst).Nodup) (h2 : ∀ p ∈ l, acc.get p.1 = none) :
    l.foldl (fun m p => m.set p.1 p.2) acc = acc ++ l := by
  induction l generalizing acc with
  | nil => simp
  | cons p rest ih =>
    obtain ⟨k, v⟩ := p
    have hacc : acc.get k = none := h2 (k, v) (List.mem_cons_self _ _)
    have hset : acc.set k v = acc ++ [(k, v)] := OMap.set_eq_append_of_get_none _ _ _ hacc
    simp only [List.foldl_cons]
    rw [hset, ih]
    · simp
    · simpa using h1.of_cons
    · intro p2 hp2
      rw [OMap.get_append]
      have hkey : p2.1 ≠ k := by
        simp only [List.map_cons, List.nodup_cons] at h1
        intro he
        exact h1.1 (he ▸ (List.mem_map_of_mem Prod.fst hp2))
      have : OMap.get acc p2.1 = none := h2 p2 (List.mem_cons_of_mem _ hp2)
      simp [this, OMap.get, hkey]

theorem OMap.get_map_pair {α γ : Type} [DecidableEq α] (key : γ → α) (l : List γ) (k : α) :
    OMap.get (l.map (fun t => (key t, t))) k = l.find? (fun t => key t == k) := by
  induction l with
  | nil => simp [OMap.get]
  | cons t tl ih =>
    simp only [List.map_cons, List.find?]
    cases hbeq : (key t == k) with
    | true =>
      have hk : k = key t := (beq_iff_eq.1 hbeq).symm
      simp [OMap.get, hk]
    | false =>
      have hne : ¬ (k = key t) := fun h => by simp [h] at hbeq
      simp [OMap.get, hne, ih]

/-! ## Lemmas about the stable descending sort -/

theorem length_insertDescBy {α : Type} (key : α → Int) (x : α) (l : List α) :
    (insertDescBy key x l).length = l.length + 1 := by
  induction l with
  | nil => simp [insertDescBy]
  | cons y ys ih =>
    by_cases h : key y ≤ key x <;> simp [insertDescBy, h, ih]

theorem mem_insertDescBy {α : Type} (key : α → Int) (x a : α) (l : List α) :
    a ∈ insertDescBy key x l ↔ a = x ∨ a ∈ l := by
  induction l with
  | nil => simp [insertDescBy]
  | cons y ys ih =>
    by_cases h : key y ≤ key x
    · simp [insertDescBy, h]
    · simp [insertDescBy, h, ih]
      tauto

theorem length_sortDescBy {α : Type} (key : α → Int) (l : List α) :
    (sortDescBy key l).length = l.length := by
  induction l with
  | nil => rfl
  | cons x xs ih => simp [sortDescBy, length_insertDescBy, ih]

theorem mem_sortDescBy {α : Type} (key : α → Int) (a : α) (l : List α) :
    a ∈ sortDescBy key l ↔ a ∈ l := by
  induction l with
  | nil => simp [sortDescBy]
  | cons x xs ih => simp [sortDescBy, mem_insertDescBy, ih]

theorem sorted_insertDescBy {α : Type} (key : α → Int) (x : α) (l : List α)
    (h : List.Pairwise (fun a b => key b ≤ key a) l) :
    List.Pairwise (fun a b => key b ≤ key a) (insertDescBy key x l) := by
  induction l with
  | nil => simp [insertDescBy]
  | cons y ys ih =>
    rcases List.pairwise_cons.1 h with ⟨hy, hys⟩
    by_cases hle : key y ≤ key x
    · rw [insertDescBy, if_pos hle]
      refine List.pairwise_cons.2 ⟨?_, h⟩
      intro z hz
      rcases List.mem_cons.1 hz with rfl | hz2
      · exact hle
      · exact le_trans (hy z hz2) hle
    · rw [insertDescBy, if_neg hle]
      refine List.pairwise_cons.2 ⟨?_, ih hys⟩
      intro z hz
      rcases (mem_insertDescBy key x z ys).1 hz with rfl | hz2
      · exact le_of_lt (lt_of_not_le hle)
      · exact hy z hz2

theorem sorted_sortDescBy {α : Type} (key : α → Int) (l : List α) :
    List.Pairwise (fun a b => key b ≤ key a) (sortDescBy key l) := by
  induction l with
  | nil => simp [sortDescBy]
  | cons x xs ih => exact sorted_insertDescBy key x _ ih

theorem filter_insertDescBy {α : Type} (key : α → Int) (x : α) (l : List α) (n : Int) :
    (insertDescBy key x l).filter (fun a => key a == n) =
      if key x == n then x :: l.filter (fun a => key a == n)
      else l.filter (fun a => key a == n) := by
  induction l with
  | nil => simp only [insertDescBy, List.filter_cons, List.filter_nil]
  | cons y ys ih =>
    by_cases hle : key y ≤ key x
    · rw [insertDescBy, if_pos hle, List.filter_cons]
    · rw [insertDescBy, if_neg hle]
      simp only [List.filter_cons, ih]
      cases hx : (key x == n) with
      | true =>
        have hxn : key x = n := beq_iff_eq.1 hx
        have hyn : (key y == n) = false := by
          rw [beq_eq_false_iff_ne]
          intro hyeq
          exact hle (le_of_eq (hyeq.trans hxn.symm))
        simp [hyn]
      | false =>
        cases hy : (key y == n) <;> simp [hy]

theorem filter_sortDescBy {α : Type} (key : α → Int) (l : List α) (n : Int) :
    (sortDescBy key l).filter (fun a => key a == n) = l.filter (fun a => key a == n) := by
  induction l with
  | nil => rfl
  | cons x xs ih =>
    rw [sortDescBy, filter_insertDescBy, ih, List.filter_cons]

/-! ## Lemmas about the session topic-name cache -/

/-- Splitting `List.findSome?` over an appended list. -/
theorem findSome_append {α β : Type} (f : α → Option β) (l1 l2 : List α) :
    (l1 ++ l2).findSome? f =
      match l1.findSome? f with
      | some v => some v
      | none => l2.findSome? f := by
  induction l1 with
  | nil => simp
  | cons a tl ih =>
    simp only [List.cons_append, List.findSome?]
    cases f a <;> simp [ih]

/-- The name the cache will hold for id `k` after `extractTopicNames`
ran on `entries`: the last pickable entry for `k`, if any. -/
def pickLastName (entries : List (Int × TopicInfo)) (k : Int) : Option String :=
  entries.reverse.findSome? (fun e => if e.1 = k then pickTopicName e.2 else none)

theorem extract_apply (es : List (Int × TopicInfo)) (c : Cache) (k : Int) :
    extractTopicNames es c k =
      match pickLastName es k with
      | some v => some v
      | none => c k := by
  induction es generalizing c with
  | nil => simp [extractTopicNames, pickLastName]
  | cons e rest ih =>
    have hstep : extractTopicNames (e :: rest) c =
        extractTopicNames rest
          (match pickTopicName e.2 with
           | some nm => cacheSet c e.1 nm
           | none => c) := by
      simp [extractTopicNames]
    rw [hstep, ih]
    have hrev : pickLastName (e :: rest) k =
        match pickLastName rest k with
        | some v => some v
        | none => (if e.1 = k then pickTopicName e.2 else none) := by
      simp only [pickLastName, List.reverse_cons, findSome_append]
      cases rest.reverse.findSome? (fun e2 => if e2.1 = k then pickTopicName e2.2 else none) with
      | some v => simp
      | none =>
        simp only [List.findSome?]
        cases (if e.1 = k then pickTopicName e.2 else none) <;> simp
    rw [hrev]
    cases hpl : pickLastName rest k with
    | some v => simp
    | none =>
      by_cases hek : e.1 = k
      · cases hpn : pickTopicName e.2 with
        | some nm => simp [hek, hpn, cacheSet]
        | none => simp [hek, hpn]
      · cases hpn : pickTopicName e.2 with
        | some nm => simp [hek, hpn, cacheSet, Ne.symm hek]
        | none => simp [hek, hpn]

/-- Re-running the extraction from the state it produced changes
nothing: the session cache reached by identical inputs is stable. -/
theorem extract_idem (es : List (Int × TopicInfo)) (c : Cache) :
    extractTopicNames es (extractTopicNames es c) = extractTopicNames es c := by
  funext k
  rw [extract_apply, extract_apply]
  cases hpl : pickLastName es k <;> simp [hpl]

/-! ## Counting invariants of the two aggregation folds -/

/-- The message is counted for topic `tid` by the second `forEach`. -/
def isTopicMsg (tid : Int) (m : Message) : Bool :=
  (m.topicId == some tid) && (tid != -1)

/-- The message is counted for user `uid` inside topic `tid`
(truthy `fromUserId` required). -/
def isTopicUserMsg (tid uid : Int) (m : Message) : Bool :=
  isTopicMsg tid m && (m.fromUserId == some uid) && (uid != 0)

/-- Valid (present, non-sentinel) topic ids of the messages, with
multiplicity. -/
def validTopicIdsOf (msgs : List Message) : List Int :=
  msgs.filterMap (fun m =>
    match m.topicId with
    | some t => if t = -1 then none else some t
    | none => none)

/-- User ids of the messages carrying both a truthy id and a truthy
name (the messages contributing to the `users` map). -/
def eligibleUserIdsOf (msgs : List Message) : List Int :=
  (msgs.filter eligibleMsg).filterMap Message.fromUserId

def optAdd (o : Option Nat) (c : Nat) : Option Nat :=
  match o with
  | some k => some (k + c)
  | none => if c = 0 then none else some c

theorem optAdd_zero (o : Option Nat) : optAdd o 0 = o := by
  cases o <;> simp [optAdd]

theorem optAdd_optAdd (o : Option Nat) (a b : Nat) :
    optAdd (optAdd o a) b = optAdd o (a + b) := by
  cases o with
  | some k => simp [optAdd, Nat.add_assoc]
  | none =>
    by_cases ha : a = 0
    · subst ha; simp [optAdd]
    · by_cases hb : b = 0
      · subst hb; simp [optAdd, ha]
      · simp [optAdd, ha, hb]

theorem optAdd_none_isSome (c : Nat) : (optAdd none c).isSome ↔ 0 < c := by
  by_cases h : c = 0 <;> simp [optAdd, h, Nat.pos_of_ne_zero]

theorem optAdd_none_of_pos (c : Nat) (h : 0 < c) : optAdd none c = some c := by
  simp [optAdd, Nat.pos_iff_ne_zero.1 h]

theorem collectTopicStep_tmc_get (acc : OMap Int Nat × OMap Int (OMap Int Nat))
    (m : Message) (tid : Int) :
    ((collectTopicStep acc m).1).get tid =
      optAdd (acc.1.get tid) (if isTopicMsg tid m then 1 else 0) := by
  cases hmt : m.topicId with
  | none => simp [collectTopicStep, isTopicMsg, hmt, optAdd_zero]
  | some t =>
    by_cases ht : t = -1
    · subst ht
      have hmsg : isTopicMsg tid m = false := by
        by_cases htid : tid = -1
        · simp [isTopicMsg, hmt, htid]
        · simp [isTopicMsg, hmt, htid, Ne.symm htid]
      simp [collectTopicStep, hmt, hmsg, optAdd_zero]
    · by_cases htt : tid = t
      · subst htt
        have hmsg : isTopicMsg tid m = true := by simp [isTopicMsg, hmt, ht]
        simp only [collectTopicStep, hmt, if_neg ht]
        rw [OMap.get_set]
        simp only [if_pos rfl, hmsg, if_pos trivial]
        cases hg : acc.1.get tid <;> simp [optAdd, hg]
      · have hmsg : isTopicMsg tid m = false := by
          simp [isTopicMsg, hmt]
          intro he
          exact absurd he.symm htt
        simp only [collectTopicStep, hmt, if_neg ht]
        rw [OMap.get_set]
        simp [htt, hmsg, optAdd_zero]

theorem foldl_topic_tmc_get (msgs : List Message)
    (acc : OMap Int Nat × OMap Int (OMap Int Nat)) (tid : Int) :
    ((msgs.foldl collectTopicStep acc).1).get tid =
      optAdd (acc.1.get tid) (msgs.countP (isTopicMsg tid)) := by
  induction msgs generalizing acc with
  | nil => simp [optAdd_zero]
  | cons m rest ih =>
    rw [List.foldl_cons, ih, collectTopicStep_tmc_get, optAdd_optAdd, List.countP_cons,
      Nat.add_comm]

theorem foldl_topic_keys_nodup (msgs : List Message)
    (acc : OMap Int Nat × OMap Int (OMap Int Nat))
    (h : ((acc.1).map Prod.fst).Nodup) :
    (((msgs.foldl collectTopicStep acc).1).map Prod.fst).Nodup := by
  induction msgs generalizing acc with
  | nil => exact h
  | cons m rest ih =>
    rw [List.foldl_cons]
    apply ih
    cases hmt : m.topicId with
    | none => simpa [collectTopicStep, hmt] using h
    | some t =>
      by_cases ht : t = -1
      · simpa [collectTopicStep, hmt, ht] using h
      · simp only [collectTopicStep, hmt, if_neg ht]
        exact OMap.nodup_keys_set _ _ _ h

theorem isTopicMsg_iff_filterMap (k : Int) (m : Message) :
    isTopicMsg k m = true ↔
      (match m.topicId with
       | some t => if t = -1 then none else some t
       | none => none) = some k := by
  cases hmt : m.topicId with
  | none => simp [isTopicMsg, hmt]
  | some t =>
    by_cases ht : t = -1
    · subst ht
      by_cases hk : k = -1
      · simp [isTopicMsg, hmt, hk]
      · simp [isTopicMsg, hmt, hk, Ne.symm hk]
    · simp [isTopicMsg, hmt, ht]
      exact fun h1 he => ht (h1.trans he)

theorem countP_isTopicMsg_pos_iff (msgs : List Message) (k : Int) :
    0 < msgs.countP (isTopicMsg k) ↔ k ∈ validTopicIdsOf msgs := by
  rw [List.countP_pos_iff, validTopicIdsOf, List.mem_filterMap]
  constructor
  · rintro ⟨m, hm, hp⟩
    exact ⟨m, hm, (isTopicMsg_iff_filterMap k m).1 hp⟩
  · rintro ⟨m, hm, hf⟩
    exact ⟨m, hm, (isTopicMsg_iff_filterMap k m).2 hf⟩

theorem mem_keys_topicMapsOf (msgs : List Message) (k : Int) :
    k ∈ ((topicMapsOf msgs).1).map Prod.fst ↔ k ∈ validTopicIdsOf msgs := by
  rw [OMap.mem_keys_iff, topicMapsOf, foldl_topic_tmc_get]
  have h0 : OMap.get (α := Int) (β := Nat) [] k = none := rfl
  rw [h0, ← countP_isTopicMsg_pos_iff]
  exact optAdd_none_isSome _

theorem nodup_keys_topicMapsOf (msgs : List Message) :
    (((topicMapsOf msgs).1).map Prod.fst).Nodup := by
  apply foldl_topic_keys_nodup
  simp

/-- The `topicCount` characterization: the length of the built topic list is
the number of distinct valid topic ids among the messages. -/
theorem topicsDataOf_length (cache : Cache) (msgs : List Message) :
    (topicsDataOf cache msgs).length = (validTopicIdsOf msgs).toFinset.card := by
  rw [topicsDataOf, length_sortDescBy, topicsDataUnsortedOf, List.length_map]
  have h1 : ((topicMapsOf msgs).1).length = (((topicMapsOf msgs).1).map Prod.fst).length := by
    rw [List.length_map]
  rw [h1, ← List.toFinset_card_of_nodup (nodup_keys_topicMapsOf msgs)]
  congr 1
  ext a
  rw [List.mem_toFinset, List.mem_toFinset, mem_keys_topicMapsOf]

/-- The inner per-topic per-user count: `tu0` creation does not change
the defaulted inner map. -/
theorem tu0_getD (acc2 : OMap Int (OMap Int Nat)) (t : Int) :
    (((if (acc2.get t).isSome then acc2 else acc2.set t []).get t).getD []) =
      ((acc2.get t).getD []) := by
  by_cases hs : (acc2.get t).isSome
  · simp [hs]
  · rw [if_neg hs, OMap.get_set, if_pos rfl]
    cases hg : acc2.get t with
    | some v => rw [hg] at hs; simp at hs
    | none => simp

theorem tu0_get_ne (acc2 : OMap Int (OMap Int Nat)) (t k : Int) (hk : k ≠ t) :
    ((if (acc2.get t).isSome then acc2 else acc2.set t []).get k) = acc2.get k := by
  by_cases hs : (acc2.get t).isSome
  · rw [if_pos hs]
  · rw [if_neg hs, OMap.get_set, if_neg hk]

theorem collectTopicStep_inner_get (acc : OMap Int Nat × OMap Int (OMap Int Nat))
    (m : Message) (tid uid : Int) :
    ((((collectTopicStep acc m).2).get tid).getD []).get uid =
      optAdd ((((acc.2).get tid).getD []).get uid)
        (if isTopicUserMsg tid uid m then 1 else 0) := by
  cases hmt : m.topicId with
  | none => simp [collectTopicStep, isTopicUserMsg, isTopicMsg, hmt, optAdd_zero]
  | some t =>
    by_cases ht : t = -1
    · have hmsg : isTopicUserMsg tid uid m = false := by
        subst ht
        by_cases htid : tid = -1
        · simp [isTopicUserMsg, isTopicMsg, hmt, htid]
        · simp [isTopicUserMsg, isTopicMsg, hmt, htid, Ne.symm htid]
      simp [collectTopicStep, hmt, ht, hmsg, optAdd_zero]
    · have htu0 : ∀ k : Int,
          (((if (acc.2.get t).isSome then acc.2 else acc.2.set t []).get k).getD []) =
            ((acc.2.get k).getD []) := by
        intro k
        by_cases hk : k = t
        · subst hk; exact tu0_getD acc.2 k
        · rw [tu0_get_ne acc.2 t k hk]
      cases hid : m.fromUserId with
      | none =>
        have hstep : ((collectTopicStep acc m).2) =
            (if (acc.2.get t).isSome then acc.2 else acc.2.set t []) := by
          simp [collectTopicStep, hmt, ht, hid]
        have hmsg : isTopicUserMsg tid uid m = false := by
          simp [isTopicUserMsg, hid]
        rw [hstep, htu0, hmsg]
        simp [optAdd_zero]
      | some u =>
        by_cases hu : u = 0
        · subst hu
          have hstep : ((collectTopicStep acc m).2) =
              (if (acc.2.get t).isSome then acc.2 else acc.2.set t []) := by
            simp [collectTopicStep, hmt, ht, hid]
          have hmsg : isTopicUserMsg tid uid m = false := by
            by_cases huid : uid = 0
            · simp [isTopicUserMsg, huid]
            · simp [isTopicUserMsg, hid, huid]
              exact fun _ he => huid he.symm
          rw [hstep, htu0, hmsg]
          simp [optAdd_zero]
        · have hstep : ((collectTopicStep acc m).2) =
              (if (acc.2.get t).isSome then acc.2 else acc.2.set t []).set t
                ((((if (acc.2.get t).isSome then acc.2 else acc.2.set t []).get t).getD []).set u
                  (((((if (acc.2.get t).isSome then acc.2 else acc.2.set t []).get t).getD
                        []).get u).getD 0 + 1)) := by
            simp [collectTopicStep, hmt, ht, hid, hu]
          rw [hstep, OMap.get_set]
          by_cases htt : tid = t
          · rw [if_pos htt]
            subst htt
            simp only [Option.getD_some]
            rw [tu0_getD, OMap.get_set]
            by_cases huu : uid = u
            · subst huu
              have hmsg : isTopicUserMsg tid uid m = true := by
                simp [isTopicUserMsg, isTopicMsg, hmt, ht, hid, hu]
              rw [if_pos rfl, hmsg]
              cases hg : ((acc.2.get tid).getD []).get uid <;> simp [optAdd, hg]
            · have hmsg : isTopicUserMsg tid uid m = false := by
                simp [isTopicUserMsg, hid]
                exact fun _ he => (huu he.symm).elim
              rw [if_neg huu, hmsg]
              simp [optAdd_zero]
          · have hmsg : isTopicUserMsg tid uid m = false := by
              simp [isTopicUserMsg, isTopicMsg, hmt]
              exact fun he => absurd he.symm htt
            rw [if_neg htt, hmsg, htu0]
            simp [optAdd_zero]

theorem foldl_topic_inner_get (msgs : List Message)
    (acc : OMap Int Nat × OMap Int (OMap Int Nat)) (tid uid : Int) :
    ((((msgs.foldl collectTopicStep acc).2).get tid).getD []).get uid =
      optAdd ((((acc.2).get tid).getD []).get uid)
        (msgs.countP (isTopicUserMsg tid uid)) := by
  induction msgs generalizing acc with
  | nil => simp [optAdd_zero]
  | cons m rest ih =>
    rw [List.foldl_cons, ih, collectTopicStep_inner_get, optAdd_optAdd, List.countP_cons,
      Nat.add_comm]

/-! ## Invariants of the user-map fold -/

/-- The user name the `users` map will hold for `uid`: the name of the
last eligible message with that id (`Map.set` keeps the latest value). -/
def lastEligibleName (msgs : List Message) (uid : Int) : Option String :=
  msgs.reverse.findSome? (fun m =>
    if eligibleMsg m && (m.fromUserId == some uid) then m.fromUserName else none)

theorem collectUserStep_users_get (acc : OMap Int String × OMap Int (List Int))
    (m : Message) (uid : Int) :
    ((collectUserStep acc m).1).get uid =
      match (if eligibleMsg m && (m.fromUserId == some uid) then m.fromUserName else none) with
      | some nm => some nm
      | none => acc.1.get uid := by
  by_cases he : eligibleMsg m
  · cases hid : m.fromUserId with
    | none => simp [eligibleMsg, idTruthy, hid] at he
    | some u =>
      cases hnm : m.fromUserName with
      | none => simp [eligibleMsg, strTruthy, hnm] at he
      | some s =>
        have hstep : ((collectUserStep acc m).1) = acc.1.set u s := by
          simp [collectUserStep, he, hid, hnm]
        rw [hstep, OMap.get_set]
        by_cases huu : uid = u
        · subst huu; simp [he, hid, hnm]
        · have : ¬ ((some u == some uid) = true) := by
            simp
            exact fun h2 => huu h2.symm
          simp [he, hid, hnm, huu, this]
  · have hstep : collectUserStep acc m = acc := by simp [collectUserStep, he]
    simp [hstep, he]

theorem foldl_user_get (msgs : List Message)
    (acc : OMap Int String × OMap Int (List Int)) (uid : Int) :
    ((msgs.foldl collectUserStep acc).1).get uid =
      match lastEligibleName msgs uid with
      | some nm => some nm
      | none => acc.1.get uid := by
  induction msgs generalizing acc with
  | nil => simp [lastEligibleName]
  | cons m rest ih =>
    rw [List.foldl_cons, ih]
    have hrev : lastEligibleName (m :: rest) uid =
        match lastEligibleName rest uid with
        | some v => some v
        | none => (if eligibleMsg m && (m.fromUserId == some uid) then m.fromUserName
                   else none) := by
      simp only [lastEligibleName, List.reverse_cons, findSome_append]
      cases rest.reverse.findSome?
          (fun m2 => if eligibleMsg m2 && (m2.fromUserId == some uid) then m2.fromUserName
                     else none) with
      | some v => simp
      | none =>
        simp only [List.findSome?]
        cases (if eligibleMsg m && (m.fromUserId == some uid) then m.fromUserName else none) <;>
          simp
    rw [hrev, collectUserStep_users_get]
    cases hpl : lastEligibleName rest uid <;>
      cases h2 : (if eligibleMsg m && (m.fromUserId == some uid) then m.fromUserName
                  else none) <;> simp

theorem foldl_user_keys_nodup (msgs : List Message)
    (acc : OMap Int String × OMap Int (List Int))
    (h : ((acc.1).map Prod.fst).Nodup) :
    (((msgs.foldl collectUserStep acc).1).map Prod.fst).Nodup := by
  induction msgs generalizing acc with
  | nil => exact h
  | cons m rest ih =>
    rw [List.foldl_cons]
    apply ih
    by_cases he : eligibleMsg m
    · cases hid : m.fromUserId with
      | none => simp [eligibleMsg, idTruthy, hid] at he
      | some u =>
        cases hnm : m.fromUserName with
        | none => simp [eligibleMsg, strTruthy, hnm] at he
        | some s =>
          have hstep : ((collectUserStep acc m).1) = acc.1.set u s := by
            simp [collectUserStep, he, hid, hnm]
          rw [hstep]
          exact OMap.nodup_keys_set _ _ _ h
    · have hstep : collectUserStep acc m = acc := by simp [collectUserStep, he]
      rw [hstep]; exact h

theorem findSome_isSome_iff {α β : Type} (f : α → Option β) (l : List α) :
    (l.findSome? f).isSome ↔ ∃ a ∈ l, (f a).isSome := by
  induction l with
  | nil => simp
  | cons a tl ih =>
    simp only [List.findSome?]
    cases hfa : f a <;> simp [hfa, ih]

theorem mem_eligibleUserIdsOf (msgs : List Message) (uid : Int) :
    uid ∈ eligibleUserIdsOf msgs ↔
      ∃ m ∈ msgs, eligibleMsg m ∧ m.fromUserId = some uid := by
  rw [eligibleUserIdsOf, List.mem_filterMap]
  constructor
  · rintro ⟨m, hm, hf⟩
    rcases List.mem_filter.1 hm with ⟨hmem, he⟩
    exact ⟨m, hmem, he, hf⟩
  · rintro ⟨m, hmem, he, hf⟩
    exact ⟨m, List.mem_filter.2 ⟨hmem, he⟩, hf⟩

theorem lastEligibleName_isSome_iff (msgs : List Message) (uid : Int) :
    (lastEligibleName msgs uid).isSome ↔ uid ∈ eligibleUserIdsOf msgs := by
  rw [lastEligibleName, findSome_isSome_iff, mem_eligibleUserIdsOf]
  constructor
  · rintro ⟨m, hm, hf⟩
    rw [List.mem_reverse] at hm
    by_cases hc : (eligibleMsg m && (m.fromUserId == some uid)) = true
    · have hc2 : eligibleMsg m = true ∧ (m.fromUserId == some uid) = true := by
        simpa using hc
      exact ⟨m, hm, hc2.1, beq_iff_eq.1 hc2.2⟩
    · rw [if_neg hc] at hf; simp at hf
  · rintro ⟨m, hm, he, hid⟩
    refine ⟨m, List.mem_reverse.2 hm, ?_⟩
    have hc : (eligibleMsg m && (m.fromUserId == some uid)) = true := by
      simp [he, hid]
    rw [if_pos hc]
    cases hnm : m.fromUserName with
    | none => simp [eligibleMsg, strTruthy, hnm] at he
    | some s => simp

theorem mem_keys_usersOf (msgs : List Message) (uid : Int) :
    uid ∈ (usersOf msgs).map Prod.fst ↔ uid ∈ eligibleUserIdsOf msgs := by
  rw [OMap.mem_keys_iff, usersOf, usersAndTopicsOf, foldl_user_get, ← lastEligibleName_isSome_iff]
  cases hpl : lastEligibleName msgs uid <;> simp [hpl, OMap.get]

theorem nodup_keys_usersOf (msgs : List Message) :
    ((usersOf msgs).map Prod.fst).Nodup := by
  apply foldl_user_keys_nodup
  simp

/-- The `activeUsers` characterization: the size of the `users` map is the
number of distinct user ids among messages with both a truthy id and a
truthy name. -/
theorem usersOf_length (msgs : List Message) :
    (usersOf msgs).length = (eligibleUserIdsOf msgs).toFinset.card := by
  have h1 : (usersOf msgs).length = ((usersOf msgs).map Prod.fst).length := by
    rw [List.length_map]
  rw [h1, ← List.toFinset_card_of_nodup (nodup_keys_usersOf msgs)]
  congr 1
  ext a
  rw [List.mem_toFinset, List.mem_toFinset, mem_keys_usersOf]

/-- The `users` map has no entry for `uid` exactly when no message in
the processed list pairs that id with a truthy name. -/
theorem usersOf_get_eq_none_iff (msgs : List Message) (uid : Int) :
    (usersOf msgs).get uid = none ↔
      ∀ m ∈ msgs, ¬ (eligibleMsg m ∧ m.fromUserId = some uid) := by
  constructor
  · intro h m hm hc
    have hmem : uid ∈ eligibleUserIdsOf msgs :=
      (mem_eligibleUserIdsOf msgs uid).2 ⟨m, hm, hc.1, hc.2⟩
    have : (OMap.get (usersOf msgs) uid).isSome :=
      (OMap.mem_keys_iff _ _).1 ((mem_keys_usersOf msgs uid).2 hmem)
    rw [h] at this
    simp at this
  · intro h
    cases hg : (usersOf msgs).get uid with
    | none => rfl
    | some v =>
      have hs : (OMap.get (usersOf msgs) uid).isSome := by rw [hg]; rfl
      have hmem : uid ∈ eligibleUserIdsOf msgs :=
        (mem_keys_usersOf msgs uid).1 ((OMap.mem_keys_iff _ _).2 hs)
      rcases (mem_eligibleUserIdsOf msgs uid).1 hmem with ⟨m, hm, he, hid⟩
      exact absurd ⟨he, hid⟩ (h m hm)

/-! ## Lemmas about the Delta Engine maps -/

/-- With distinct topic ids, `new Map(topics.map(t => [t.id, t]))` is the
pair list itself (every `set` appends). -/
theorem topicMapOfList_eq (topics : List TopicData)
    (h : (topics.map TopicData.id).Nodup) :
    topicMapOfList topics = topics.map (fun t => (t.id, t)) := by
  have hfm : (topics.map (fun t => (t.id, t))).foldl
      (fun (m : OMap Int TopicData) (p : Int × TopicData) => m.set p.1 p.2) [] =
      topics.foldl (fun (m : OMap Int TopicData) t => m.set t.id t) [] := by
    rw [List.foldl_map]
  rw [topicMapOfList, ← hfm]
  rw [OMap.foldl_set_of_nodup]
  · simp
  · simpa [List.map_map, Function.comp] using h
  · intro p _; rfl

theorem topicMapOfList_get (topics : List TopicData)
    (h : (topics.map TopicData.id).Nodup) (k : Int) :
    (topicMapOfList topics).get k = topics.find? (fun t => t.id == k) := by
  rw [topicMapOfList_eq topics h, OMap.get_map_pair]

theorem map_pair_filter_snd (topics : List TopicData) (P : Int × TopicData → Bool) :
    (((topics.map (fun t => (t.id, t))).filter P).map Prod.snd) =
      topics.filter (fun t => P (t.id, t)) := by
  induction topics with
  | nil => rfl
  | cons t tl ih => cases hP : P (t.id, t) <;> simp [List.filter_cons, hP, ih]

/-! ## Projection lemmas for processTreeLocally -/

theorem processTreeLocally_some_eq (t : RawTree) (msgs : List Message)
    (hm : t.messages = some msgs) (q : QueryData) (v : String) (c : Cache) (now : String) :
    processTreeLocally (some t) q v c now = processTreeCore t.topics msgs q v c now := by
  obtain ⟨tm, tt⟩ := t
  simp only at hm
  subst hm
  rfl

theorem processTreeCore_data (tf : Option (List (Int × TopicInfo))) (msgs : List Message)
    (q : QueryData) (v : String) (c : Cache) (now : String) :
    (processTreeCore tf msgs q v c now).1.data =
      some (aggDataOf (extractTopicNames (tf.getD []) c) (filterMessages q msgs)) := rfl

theorem processTreeCore_insights (tf : Option (List (Int × TopicInfo))) (msgs : List Message)
    (q : QueryData) (v : String) (c : Cache) (now : String) :
    (processTreeCore tf msgs q v c now).1.insights =
      generateInsights (extractTopicNames (tf.getD []) c) (filterMessages q msgs)
        (topicsDataOf (extractTopicNames (tf.getD []) c) (filterMessages q msgs))
        (usersOf (filterMessages q msgs)) q := rfl

theorem aggDataOf_messageCount (cache : Cache) (msgs : List Message) :
    (aggDataOf cache msgs).messageCount = msgs.length := rfl

theorem aggDataOf_topicCount (cache : Cache) (msgs : List Message) :
    (aggDataOf cache msgs).topicCount = (topicsDataOf cache msgs).length := rfl

theorem aggDataOf_activeUsers (cache : Cache) (msgs : List Message) :
    (aggDataOf cache msgs).activeUsers = (usersOf msgs).length := rfl

theorem aggDataOf_topics (cache : Cache) (msgs : List Message) :
    (aggDataOf cache msgs).topics = topicsDataOf cache msgs := rfl

/-! ## Concrete sample inputs used by the claim theorems -/

def sampleQuery : QueryData := { type := "channel_query" }

def msgOf (uid : Int) (nm : Option String) (tid : Int) : Message :=
  { fromUserId := some uid, fromUserName := nm, topicId := some tid }

def treeC2 : RawTree := { messages := some [msgOf 1 none 0] }

def treeC3 : RawTree := { messages := some [{ topicId := some 0 }] }

def treeC7 : RawTree := { messages := some [] }

def msgsC8 : List Message := [msgOf 1 (some "alice") 0, msgOf 2 (some "bob") 1]

def treeC8 : RawTree := { messages := some msgsC8 }

def queryC8 : QueryData := { type := "channel_query", users := [1] }

/-! ## Claim C1 -/

/-- C1, counterexample: for a RawTree whose `messages` mapping is
absent, the returned `data` is the EMPTY object (modelled `none`) — the
result does not contain an aggregate with zero-valued counts, so the
claim "returns a well-formed result with all counts zero" is false as
stated. -/
theorem c1_counterexample :
    (processTreeLocally (some { messages := none, topics := none }) sampleQuery
        "v1" emptyCache "2024-01-01T00:00:00.000Z").1.data = none ∧
      ¬ ∃ d : AggData,
          (processTreeLocally (some { messages := none, topics := none }) sampleQuery
              "v1" emptyCache "2024-01-01T00:00:00.000Z").1.data = some d ∧
            d.messageCount = 0 ∧ d.topicCount = 0 ∧ d.activeUsers = 0 := by
  refine ⟨rfl, ?_⟩
  rintro ⟨d, hd, -⟩
  exact Option.noConfusion hd

/-- C1, amended: when the tree or its message mapping is absent,
`processTreeLocally` returns — without throwing, the embedded function
being total — the fixed no-data summary, an EMPTY data object carrying
no counts at all, the insight list equal to exactly
`["No messages found in the tree data"]`, and leaves the session cache
unchanged. -/
theorem c1_amended (treeData : Option RawTree) (q : QueryData) (v now : String) (c : Cache)
    (h : treeData = none ∨ ∃ t, treeData = some t ∧ t.messages = none) :
    (processTreeLocally treeData q v c now).1.summary = "No data available for processing" ∧
      (processTreeLocally treeData q v c now).1.data = none ∧
      (processTreeLocally treeData q v c now).1.insights =
        ["No messages found in the tree data"] ∧
      (processTreeLocally treeData q v c now).2 = c := by
  rcases h with rfl | ⟨t, rfl, hm⟩
  · exact ⟨rfl, rfl, rfl, rfl⟩
  · obtain ⟨tm, tt⟩ := t
    simp only at hm
    subst hm
    exact ⟨rfl, rfl, rfl, rfl⟩

theorem c1_amended_witness :
    (processTreeLocally (some { messages := none, topics := none }) sampleQuery "v1"
        emptyCache "T").1.summary = "No data available for processing" ∧
      (processTreeLocally (some { messages := none, topics := none }) sampleQuery "v1"
          emptyCache "T").1.data = none ∧
      (processTreeLocally (some { messages := none, topics := none }) sampleQuery "v1"
          emptyCache "T").1.insights = ["No messages found in the tree data"] ∧
      (processTreeLocally (some { messages := none, topics := none }) sampleQuery "v1"
          emptyCache "T").2 = emptyCache :=
  c1_amended (some { messages := none, topics := none }) sampleQuery "v1" "T" emptyCache
    (Or.inr ⟨_, rfl, rfl⟩)

/-! ## Claim C2 -/

/-- C2, counterexample: one message with a truthy `fromUserId = 1` but
no `fromUserName`: the filtered messages carry 1 distinct `fromUserId`
value, yet the result has `activeUsers = 0` — `activeUsers` does not
equal the number of distinct `fromUserId` values. -/
theorem c2_counterexample :
    (processTreeLocally (some treeC2) sampleQuery "v1" emptyCache "T").1.data.map
        AggData.activeUsers = some 0 ∧
      ((filterMessages sampleQuery ((treeC2.messages).getD [])).filterMap
          Message.fromUserId).toFinset.card = 1 := by
  exact ⟨rfl, by decide⟩

/-- C2, amended: `topicCount` equals the number of distinct valid
(present, non-sentinel) topic ids among the filtered messages — as
claimed — while `activeUsers` equals the number of distinct
`fromUserId` values among only those filtered messages that carry BOTH
a truthy `fromUserId` and a truthy `fromUserName` (a message without a
username contributes to no user, contrary to the original claim). -/
theorem c2_amended (t : RawTree) (msgs : List Message) (hm : t.messages = some msgs)
    (q : QueryData) (v now : String) (c : Cache) :
    ∃ d : AggData,
      (processTreeLocally (some t) q v c now).1.data = some d ∧
        d.topicCount = (validTopicIdsOf (filterMessages q msgs)).toFinset.card ∧
        d.activeUsers = (eligibleUserIdsOf (filterMessages q msgs)).toFinset.card := by
  rw [processTreeLocally_some_eq t msgs hm, processTreeCore_data]
  refine ⟨_, rfl, ?_, ?_⟩
  · rw [aggDataOf_topicCount, topicsDataOf_length]
  · rw [aggDataOf_activeUsers, usersOf_length]

theorem c2_amended_witness :
    ∃ d : AggData,
      (processTreeLocally (some treeC2) sampleQuery "v1" emptyCache "T").1.data = some d ∧
        d.topicCount =
          (validTopicIdsOf (filterMessages sampleQuery [msgOf 1 none 0])).toFinset.card ∧
        d.activeUsers =
          (eligibleUserIdsOf (filterMessages sampleQuery [msgOf 1 none 0])).toFinset.card :=
  c2_amended treeC2 [msgOf 1 none 0] rfl sampleQuery "v1" "T" emptyCache

/-! ## Claim C3 -/

/-- C3: the claim states the intent (and §7 of the spec demands it), but
line 985 of src/script.js divides `messages.length` by `users.size`
WITHOUT the zero guard used for the same average elsewhere (lines 951
and 1358).  For a tree with one message carrying a topic id but no user,
topics exist, `users.size = 0`, and the rendered user-participation
insight contains `Infinity`. -/
theorem c3_infinity_bug :
    ((processTreeLocally (some treeC3) sampleQuery "v1" emptyCache "T").1.insights)[2]? =
        some ("0 users actively participating with an average of Infinity messages each") ∧
      jsIncludes ("0 users actively participating with an average of Infinity messages each")
        ("Infinity") = true := by
  exact ⟨rfl, by decide⟩

/-! ## Claim C7 -/

/-- C7, counterexample: two invocations of `processTreeLocally` on the
identical (RawTree, QueryRequest, version, cache) at different
wall-clock instants give different results — the output embeds
`new Date().toISOString()` in `metadata.timestamp`, so repeated
invocations are not byte-identical. -/
theorem c7_counterexample :
    (processTreeLocally (some treeC7) sampleQuery "v1" emptyCache
        "2024-01-01T00:00:00.000Z").1 ≠
      (processTreeLocally (some treeC7) sampleQuery "v1" emptyCache
        "2024-01-01T00:00:01.000Z").1 := by
  decide

/-- C7, amended: the pipeline is deterministic except for the embedded
wall-clock timestamp.  Re-running `processTreeLocally` on the identical
tree, query and version, from the session cache state its own run
produced, returns the identical cache and a result equal in every field
except `metadata.timestamp`, which carries the clock of the later invocation;
with equal clock readings the outputs are byte-identical.
`generateInsights`, as embedded, reads no clock and no mutable state, so
equal inputs give equal outputs definitionally. -/
theorem c7_amended (treeData : Option RawTree) (q : QueryData) (v : String) (c : Cache)
    (now1 now2 : String) :
    (processTreeLocally treeData q v
        (processTreeLocally treeData q v c now1).2 now2).2 =
      (processTreeLocally treeData q v c now1).2 ∧
    (processTreeLocally treeData q v
        (processTreeLocally treeData q v c now1).2 now2).1 =
      { (processTreeLocally treeData q v c now1).1 with
          metadata := { (processTreeLocally treeData q v c now1).1.metadata with
                          timestamp := now2 } } := by
  cases treeData with
  | none => exact ⟨rfl, rfl⟩
  | some t =>
    obtain ⟨tm, tt⟩ := t
    cases tm with
    | none => exact ⟨rfl, rfl⟩
    | some msgs =>
      simp only [processTreeLocally, processTreeCore]
      rw [extract_idem]
      exact ⟨rfl, rfl⟩

/-! ## Claim C8 -/

/-- C8, confirmed: for a user filter S contained in the user ids of the tree,
the filtered `messageCount` and `topicCount` never exceed the unfiltered
ones (empty `users` = no filter). -/
theorem c8_filter_monotone (t : RawTree) (msgs : List Message) (hm : t.messages = some msgs)
    (q : QueryData) (v now : String) (c : Cache)
    (hsub : ∀ u ∈ q.users, some u ∈ msgs.map Message.fromUserId) :
    ∃ dS dA : AggData,
      (processTreeLocally (some t) q v c now).1.data = some dS ∧
      (processTreeLocally (some t) { q with users := [] } v c now).1.data = some dA ∧
      dS.messageCount ≤ dA.messageCount ∧ dS.topicCount ≤ dA.topicCount := by
  rw [processTreeLocally_some_eq t msgs hm q, processTreeCore_data,
    processTreeLocally_some_eq t msgs hm { q with users := [] }, processTreeCore_data]
  have hnof : filterMessages { q with users := [] } msgs = msgs := rfl
  have hsubl : (filterMessages q msgs).Sublist msgs := by
    rw [filterMessages]
    by_cases hq : q.users.length > 0
    · rw [if_pos hq]; exact List.filter_sublist msgs
    · rw [if_neg hq]
  refine ⟨_, _, rfl, rfl, ?_, ?_⟩
  · rw [aggDataOf_messageCount, aggDataOf_messageCount, hnof]
    exact hsubl.length_le
  · rw [aggDataOf_topicCount, aggDataOf_topicCount, topicsDataOf_length, topicsDataOf_length,
      hnof]
    apply Finset.card_le_card
    intro a ha
    rw [List.mem_toFinset] at ha ⊢
    have hsub2 : (validTopicIdsOf (filterMessages q msgs)).Sublist (validTopicIdsOf msgs) :=
      hsubl.filterMap _
    exact hsub2.subset ha

theorem c8_filter_monotone_witness :
    ∃ dS dA : AggData,
      (processTreeLocally (some treeC8) queryC8 "v1" emptyCache "T").1.data = some dS ∧
      (processTreeLocally (some treeC8) { queryC8 with users := [] } "v1" emptyCache
          "T").1.data = some dA ∧
      dS.messageCount ≤ dA.messageCount ∧ dS.topicCount ≤ dA.topicCount :=
  c8_filter_monotone treeC8 msgsC8 rfl queryC8 "v1" "T" emptyCache (by decide)

/-! ## Claim C6 -/

def topicC6a : TopicData :=
  { id := 7, name := "Token Economics", messageCount := 3, contributorCount := 0,
    contributors := [] }

def topicC6b : TopicData :=
  { id := 42, name := "Topic 42", messageCount := 1, contributorCount := 0,
    contributors := [] }

def aggC6 (ts : List TopicData) : AggData :=
  { messageCount := 0, topicCount := ts.length, activeUsers := 0, topics := ts,
    topicsByPopularity := ts, mostDiscussedTopic := ts.head?,
    userEngagement := { averageMessagesPerUser := 0, averageTopicsPerUser := 0 } }

/-- C6, confirmed: for results with distinct topic ids (as the pipeline
produces), the delta classifies every id into exactly one class — only
in the later result: new; only in the earlier: removed; in both with
different counts: changed with `change = later - earlier` and
`changePercent = Math.round(change / earlier * 100)`; equal counts are
omitted from the changed list.  And concretely, when the later version
adds one message to the previously unseen topic id 42, the delta has
exactly one new topic (id 42, messageCount 1), no removed topics, and an
empty changed list (so topic 42 is not in it). -/
theorem c6_delta_classification :
    (∀ (first second : AggData),
        (first.topics.map TopicData.id).Nodup →
        (second.topics.map TopicData.id).Nodup →
        (generateDeltaAnalysis first second).newTopics =
            second.topics.filter
              (fun ts => (first.topics.find? (fun tf => tf.id == ts.id)).isNone) ∧
          (generateDeltaAnalysis first second).removedTopics =
            first.topics.filter
              (fun tf => (second.topics.find? (fun ts => ts.id == tf.id)).isNone) ∧
          (generateDeltaAnalysis first second).changedTopics =
            first.topics.filterMap (fun tf =>
              match second.topics.find? (fun ts => ts.id == tf.id) with
              | some ts =>
                  if ts.messageCount ≠ tf.messageCount then
                    some { topic := ts,
                           change := (ts.messageCount : Int) - (tf.messageCount : Int),
                           changePercent :=
                             jsRoundPct ((ts.messageCount : Int) - (tf.messageCount : Int))
                               tf.messageCount,
                           previousCount := tf.messageCount }
                  else none
              | none => none)) ∧
      ((generateDeltaAnalysis (aggC6 [topicC6a]) (aggC6 [topicC6a, topicC6b])).newTopics =
          [topicC6b] ∧
        topicC6b.id = 42 ∧ topicC6b.messageCount = 1 ∧
        (generateDeltaAnalysis (aggC6 [topicC6a]) (aggC6 [topicC6a, topicC6b])).removedTopics =
          [] ∧
        (generateDeltaAnalysis (aggC6 [topicC6a]) (aggC6 [topicC6a, topicC6b])).changedTopics =
          []) := by
  constructor
  · intro first second h1 h2
    simp only [generateDeltaAnalysis, topicMapOfList_eq first.topics h1,
      topicMapOfList_eq second.topics h2, OMap.get_map_pair]
    refine ⟨?_, ?_, ?_⟩
    · rw [map_pair_filter_snd]
    · rw [map_pair_filter_snd]
    · rw [List.filterMap_map]
      rfl

  · exact ⟨by decide, rfl, rfl, by decide, by decide⟩

theorem c6_delta_classification_witness :
    (generateDeltaAnalysis (aggC6 [topicC6a]) (aggC6 [topicC6a, topicC6b])).newTopics =
        (aggC6 [topicC6a, topicC6b]).topics.filter
          (fun ts => ((aggC6 [topicC6a]).topics.find? (fun tf => tf.id == ts.id)).isNone) ∧
      (generateDeltaAnalysis (aggC6 [topicC6a]) (aggC6 [topicC6a, topicC6b])).removedTopics =
        (aggC6 [topicC6a]).topics.filter
          (fun tf =>
            ((aggC6 [topicC6a, topicC6b]).topics.find? (fun ts => ts.id == tf.id)).isNone) ∧
      (generateDeltaAnalysis (aggC6 [topicC6a]) (aggC6 [topicC6a, topicC6b])).changedTopics =
        (aggC6 [topicC6a]).topics.filterMap (fun tf =>
          match (aggC6 [topicC6a, topicC6b]).topics.find? (fun ts => ts.id == tf.id) with
          | some ts =>
              if ts.messageCount ≠ tf.messageCount then
                some { topic := ts,
                       change := (ts.messageCount : Int) - (tf.messageCount : Int),
                       changePercent :=
                         jsRoundPct ((ts.messageCount : Int) - (tf.messageCount : Int))
                           tf.messageCount,
                       previousCount := tf.messageCount }
              else none
          | none => none) :=
  c6_delta_classification.1 (aggC6 [topicC6a]) (aggC6 [topicC6a, topicC6b])
    (by decide) (by decide)

/-! ## Claim C9 -/

/-- C9, confirmed: in every result the topic list is sorted descending
by `messageCount` and, for every count value, the equal-count entries
appear exactly as in the unsorted accumulator list (which is in
encounter order) — the sort is stable; the same holds for the
contributor list inside every topic. -/
theorem c9_sort_stability (t : RawTree) (msgs : List Message) (hm : t.messages = some msgs)
    (q : QueryData) (v now : String) (c : Cache) :
    ∃ d : AggData,
      (processTreeLocally (some t) q v c now).1.data = some d ∧
      List.Pairwise (fun a b => b.messageCount ≤ a.messageCount) d.topics ∧
      (∀ n : Nat, d.topics.filter (fun x => x.messageCount == n) =
        (topicsDataUnsortedOf (extractTopicNames ((t.topics).getD []) c)
            (topicMapsOf (filterMessages q msgs)).1 (topicMapsOf (filterMessages q msgs)).2
            (usersOf (filterMessages q msgs))).filter (fun x => x.messageCount == n)) ∧
      (∀ x ∈ d.topics,
        List.Pairwise (fun a b => b.messageCount ≤ a.messageCount) x.contributors ∧
        ∀ n : Nat, x.contributors.filter (fun cc => cc.messageCount == n) =
          (contributorsUnsortedOf (usersOf (filterMessages q msgs))
              ((((topicMapsOf (filterMessages q msgs)).2).get x.id).getD [])).filter
            (fun cc => cc.messageCount == n)) := by
  have hcongT : ∀ (l : List TopicData) (n : Nat),
      l.filter (fun x => x.messageCount == n) =
        l.filter (fun x => ((x.messageCount : Int) == (n : Int))) := by
    intro l n
    apply List.filter_congr
    intro x _
    by_cases hx : x.messageCount = n <;> simp [hx, Nat.cast_inj]
  have hcongC : ∀ (l : List Contributor) (n : Nat),
      l.filter (fun x => x.messageCount == n) =
        l.filter (fun x => ((x.messageCount : Int) == (n : Int))) := by
    intro l n
    apply List.filter_congr
    intro x _
    by_cases hx : x.messageCount = n <;> simp [hx, Nat.cast_inj]
  rw [processTreeLocally_some_eq t msgs hm, processTreeCore_data]
  refine ⟨_, rfl, ?_, ?_, ?_⟩
  · simp only [aggDataOf_topics, topicsDataOf]
    exact (sorted_sortDescBy _ _).imp (fun hab => by exact_mod_cast hab)
  · intro n
    simp only [aggDataOf_topics, topicsDataOf]
    rw [hcongT, hcongT, filter_sortDescBy]
  · intro x hx
    simp only [aggDataOf_topics, topicsDataOf] at hx
    rw [mem_sortDescBy, topicsDataUnsortedOf] at hx
    rcases List.mem_map.1 hx with ⟨p, hp, rfl⟩
    dsimp only
    constructor
    · rw [contributorsOf]
      exact (sorted_sortDescBy _ _).imp (fun hab => by exact_mod_cast hab)
    · intro n
      rw [contributorsOf, hcongC, hcongC, filter_sortDescBy]

theorem c9_sort_stability_witness :
    ∃ d : AggData,
      (processTreeLocally (some treeC8) sampleQuery "v1" emptyCache "T").1.data = some d ∧
      List.Pairwise (fun a b => b.messageCount ≤ a.messageCount) d.topics ∧
      (∀ n : Nat, d.topics.filter (fun x => x.messageCount == n) =
        (topicsDataUnsortedOf (extractTopicNames ((treeC8.topics).getD []) emptyCache)
            (topicMapsOf (filterMessages sampleQuery msgsC8)).1
            (topicMapsOf (filterMessages sampleQuery msgsC8)).2
            (usersOf (filterMessages sampleQuery msgsC8))).filter
          (fun x => x.messageCount == n)) ∧
      (∀ x ∈ d.topics,
        List.Pairwise (fun a b => b.messageCount ≤ a.messageCount) x.contributors ∧
        ∀ n : Nat, x.contributors.filter (fun cc => cc.messageCount == n) =
          (contributorsUnsortedOf (usersOf (filterMessages sampleQuery msgsC8))
              ((((topicMapsOf (filterMessages sampleQuery msgsC8)).2).get x.id).getD
                [])).filter (fun cc => cc.messageCount == n)) :=
  c9_sort_stability treeC8 msgsC8 rfl sampleQuery "v1" "T" emptyCache

/-! ## Claim C4 -/

def msgsC4 : List Message :=
  [msgOf 1 (some "alice") 0, msgOf 1 (some "alice") 0, msgOf 1 (some "alice") 0,
   msgOf 1 (some "alice") 0, msgOf 1 (some "alice") 1, msgOf 1 (some "alice") 1,
   msgOf 1 (some "alice") 1, msgOf 1 (some "alice") 1, msgOf 1 (some "alice") 1,
   msgOf 2 (some "bob") 0, msgOf 2 (some "bob") 1]

def questionC4 : String := "how do alice and bob differ in opinion"

/-- C4, counterexample: alice and bob share topics 0 and 1 with
absolute differences 3 and 4, both above the threshold, but the emitted
insight names topic 0 ("General Discussion", difference 3) — the first
common topic in the encounter order of the first user — and not the
largest-difference topic ("Technical Implementation", difference 4). -/
theorem c4_counterexample :
    (commonTopicsOf emptyCache (((userTopicMapOf msgsC4).get ("alice")).getD [])
        (((userTopicMapOf msgsC4).get ("bob")).getD [])).map CommonTopic.difference =
      [3, 4] ∧
    (commonTopicsOf emptyCache (((userTopicMapOf msgsC4).get ("alice")).getD [])
        (((userTopicMapOf msgsC4).get ("bob")).getD [])).map CommonTopic.name =
      ["General Discussion", "Technical Implementation"] ∧
    (analyzeUserDisagreements emptyCache msgsC4 [] (usersOf msgsC4) questionC4)[1]? =
      some ("Biggest engagement difference in \"General Discussion\": alice (4 msgs) vs bob (1 msgs)") ∧
    jsIncludes
      ("Biggest engagement difference in \"General Discussion\": alice (4 msgs) vs bob (1 msgs)")
      ("Technical Implementation") = false := by
  exact ⟨by decide, by decide, by decide, by decide⟩

/-- C4, amended: whenever at least two usernames match the question and
the filtered common-topic list with difference above 2 is non-empty, the
emitted engagement-difference insight (position 1 of the analysis
output) names the FIRST common topic, in the encounter order of the
first user, whose absolute difference exceeds 2 — not necessarily the one
with the largest difference. -/
theorem c4_amended (cache : Cache) (messages : List Message) (topicsData : List TopicData)
    (users : OMap Int String) (question : String) (u1 u2 : String) (rest : List String)
    (hmention : mentionedUsersOf users question = u1 :: u2 :: rest)
    (td : CommonTopic) (tds : List CommonTopic)
    (hsig : (commonTopicsOf cache (((userTopicMapOf messages).get u1).getD [])
        (((userTopicMapOf messages).get u2).getD [])).filter
        (fun x => 2 < x.difference) = td :: tds) :
    (analyzeUserDisagreements cache messages topicsData users question)[1]? =
      some (disagreementInsight u1 u2 td) := by
  have hcommon : commonTopicsOf cache (((userTopicMapOf messages).get u1).getD [])
      (((userTopicMapOf messages).get u2).getD []) ≠ [] := by
    intro h
    rw [h] at hsig
    simp at hsig
  simp only [analyzeUserDisagreements, hmention]
  cases hc : commonTopicsOf cache (((userTopicMapOf messages).get u1).getD [])
      (((userTopicMapOf messages).get u2).getD []) with
  | nil => exact absurd hc hcommon
  | cons c0 cs =>
    rw [hc] at hsig
    simp only [hsig]
    simp

def ctC4a : CommonTopic :=
  { topicId := 0, name := "General Discussion", user1Messages := 4, user2Messages := 1,
    difference := 3 }

def ctC4b : CommonTopic :=
  { topicId := 1, name := "Technical Implementation", user1Messages := 5, user2Messages := 1,
    difference := 4 }

theorem c4_amended_witness :
    (analyzeUserDisagreements emptyCache msgsC4 [] (usersOf msgsC4) questionC4)[1]? =
      some (disagreementInsight ("alice") ("bob") ctC4a) :=
  c4_amended emptyCache msgsC4 [] (usersOf msgsC4) questionC4 "alice" "bob" [] (by decide)
    ctC4a [ctC4b] (by decide)

/-! ## Claim C5 -/

def msgsC5 : List Message :=
  [msgOf 2 (some "bob") 0, msgOf 2 (some "bob") 0, msgOf 1 (some "alice") 0,
   msgOf 1 (some "alice") 1, msgOf 1 (some "alice") 1]

/-- C5, counterexample: the top topic (topic 0, 3 messages) has bob as
its top contributor, so the insight names @bob with cross-topic total 2
over 1 topic, while alice holds the LARGEST cross-topic total (3) — the
insight does not name the user with the largest total. -/
theorem c5_counterexample :
    (generateInsights emptyCache msgsC5 (topicsDataOf emptyCache msgsC5) (usersOf msgsC5)
        sampleQuery)[4]? =
      some ("Most active contributor: @bob (2 messages across 1 topics)") ∧
    userTotalMessages (topicsDataOf emptyCache msgsC5) 1 = 3 ∧
    userTotalMessages (topicsDataOf emptyCache msgsC5) 2 = 2 ∧
    jsIncludes ("Most active contributor: @bob (2 messages across 1 topics)") ("alice") =
      false := by
  exact ⟨by decide, by decide, by decide, by decide⟩

/-- C5, amended: when there is at least one topic and the most-discussed
topic has at least one contributor, the insight at position 4 names the
TOP CONTRIBUTOR OF THE MOST-DISCUSSED TOPIC (not necessarily the user
with the largest global total), together with the message total of that user
summed across every topic and the number of distinct topics listing the
user as a contributor; with no contributor on the top topic the insight
is not emitted at all. -/
theorem c5_amended (cache : Cache) (messages : List Message) (topicsData : List TopicData)
    (users : OMap Int String) (q : QueryData) (topTopic : TopicData)
    (restT : List TopicData) (ht : topicsData = topTopic :: restT)
    (topContributor : Contributor) (restC : List Contributor)
    (hc : topTopic.contributors = topContributor :: restC) :
    (generateInsights cache messages topicsData users q)[4]? =
      some (mostActiveInsight topicsData topContributor) := by
  subst ht
  simp only [generateInsights, hc]
  simp

def contribC5w : Contributor := { userId := 1, username := "@a", messageCount := 2 }

def topicC5w : TopicData :=
  { id := 0, name := "T", messageCount := 2, contributorCount := 1,
    contributors := [contribC5w] }

theorem c5_amended_witness :
    (generateInsights emptyCache [] [topicC5w] [] sampleQuery)[4]? =
      some (mostActiveInsight [topicC5w] contribC5w) :=
  c5_amended emptyCache [] _ [] sampleQuery _ [] rfl _ [] rfl

/-! ## Claim C10 -/

/-- The topic record built by `topicsDataUnsortedOf` for key `tid` with
count `cnt` (proof-side abbreviation of the mapping at lines 925-931). -/
def topicDataEntry (cache : Cache) (tu : OMap Int (OMap Int Nat)) (users : OMap Int String)
    (tid : Int) (cnt : Nat) : TopicData :=
  { id := tid, name := getTopicName cache tid, messageCount := cnt,
    contributorCount := (contributorsOf users ((tu.get tid).getD [])).length,
    contributors := contributorsOf users ((tu.get tid).getD []) }

/-- The contributor record built at lines 913-919 when the user map has
no (truthy) name for the id. -/
def fallbackContributor (uid : Int) (cnt : Nat) : Contributor :=
  { userId := uid, username := "@" ++ ("User " ++ toString uid), messageCount := cnt }

/-- The topic record the unsorted topic list holds for a key of the
count map. -/
theorem topicsDataUnsortedOf_mem (cache : Cache) (tmc : OMap Int Nat)
    (tu : OMap Int (OMap Int Nat)) (users : OMap Int String) (tid : Int) (cnt : Nat)
    (hget : tmc.get tid = some cnt) :
    topicDataEntry cache tu users tid cnt ∈ topicsDataUnsortedOf cache tmc tu users := by
  rw [topicsDataUnsortedOf]
  exact List.mem_map.2 ⟨(tid, cnt), OMap.get_mem _ _ _ hget, rfl⟩

/-- A user id with no captured username is listed in the contributor
list of an inner topic-user map under the `@User {id}` fallback. -/
theorem contributorsUnsortedOf_mem_fallback (users : OMap Int String) (tum : OMap Int Nat)
    (uid : Int) (cnt : Nat) (hget : tum.get uid = some cnt)
    (husers : users.get uid = none) :
    fallbackContributor uid cnt ∈ contributorsUnsortedOf users tum := by
  rw [contributorsUnsortedOf, fallbackContributor]
  refine List.mem_map.2 ⟨(uid, cnt), OMap.get_mem _ _ _ hget, ?_⟩
  simp only [husers]

def msgsC10 : List Message := [msgOf 1 (some "alice") 0, msgOf 1 none 0]

def treeC10 : RawTree := { messages := some msgsC10 }

/-- C10, counterexample: the second message has a truthy
`fromUserId = 1`, a valid topic id and no `fromUserName`; but because
the SAME user id also sent a message carrying a username, the user IS
counted in `activeUsers` (= 1) and listed as "@alice" with count 2 — not
under the fallback name "@User 1" — so the claim fails as universally
stated per message. -/
theorem c10_counterexample :
    (msgsC10[1]?.map Message.fromUserName) = some none ∧
    (msgsC10[1]?.map Message.fromUserId) = some (some 1) ∧
    (processTreeLocally (some treeC10) sampleQuery "v1" emptyCache "T").1.data.map
        AggData.activeUsers = some 1 ∧
    ((processTreeLocally (some treeC10) sampleQuery "v1" emptyCache "T").1.data.map
        (fun d => d.topics.map (fun tr => tr.contributors.map Contributor.username))) =
      some [["@alice"]] := by
  exact ⟨rfl, rfl, rfl, rfl⟩

/-- C10, amended: for every filtered message with a truthy `fromUserId`,
a valid topic id, and whose user id carries NO truthy `fromUserName` in
any filtered message, the aggregator counts the message in
`messageCount` and in the `messageCount` of its topic, lists the user in
the contributor list of that topic under the fallback name with the
exact per-topic per-user count, yet excludes the id from `activeUsers`
(which counts only ids carrying a username); consequently the
`contributorCount` of a topic can exceed `activeUsers` (second
conjunct, at a concrete input). -/
theorem c10_fallback_contributor :
    (∀ (t : RawTree) (msgs : List Message), t.messages = some msgs →
      ∀ (q : QueryData) (v now : String) (c : Cache) (m : Message) (uid tid : Int),
        m ∈ filterMessages q msgs →
        m.fromUserId = some uid → uid ≠ 0 →
        m.topicId = some tid → tid ≠ -1 →
        (∀ m2 ∈ filterMessages q msgs, m2.fromUserId = some uid →
          ¬ strTruthy m2.fromUserName) →
        ∃ d : AggData,
          (processTreeLocally (some t) q v c now).1.data = some d ∧
          d.messageCount = (filterMessages q msgs).length ∧
          uid ∉ eligibleUserIdsOf (filterMessages q msgs) ∧
          d.activeUsers = (eligibleUserIdsOf (filterMessages q msgs)).toFinset.card ∧
          ∃ tdrec ∈ d.topics, tdrec.id = tid ∧
            tdrec.messageCount = (filterMessages q msgs).countP (isTopicMsg tid) ∧
            0 < tdrec.messageCount ∧
            tdrec.contributorCount = tdrec.contributors.length ∧
            ∃ contrib ∈ tdrec.contributors,
              contrib.userId = uid ∧
              contrib.username = "@" ++ ("User " ++ toString uid) ∧
              contrib.messageCount =
                (filterMessages q msgs).countP (isTopicUserMsg tid uid)) ∧
    (∃ d0 : AggData,
      (processTreeLocally (some { messages := some [msgOf 5 none 0] }) sampleQuery "v1"
          emptyCache "T").1.data = some d0 ∧
      ∃ tr ∈ d0.topics, d0.activeUsers < tr.contributorCount) := by
  constructor
  · intro t msgs hm q v now c m uid tid hmem hid hu hmtid htidne hnoname
    rw [processTreeLocally_some_eq t msgs hm, processTreeCore_data]
    have hmsgP : isTopicMsg tid m = true := by simp [isTopicMsg, hmtid, htidne]
    have hcnt : 0 < (filterMessages q msgs).countP (isTopicMsg tid) :=
      List.countP_pos_iff.2 ⟨m, hmem, hmsgP⟩
    have hget : ((topicMapsOf (filterMessages q msgs)).1).get tid =
        some ((filterMessages q msgs).countP (isTopicMsg tid)) := by
      rw [topicMapsOf, foldl_topic_tmc_get]
      exact optAdd_none_of_pos _ hcnt
    have hup : isTopicUserMsg tid uid m = true := by
      simp [isTopicUserMsg, hmsgP, hid, hu]
    have hcnt2 : 0 < (filterMessages q msgs).countP (isTopicUserMsg tid uid) :=
      List.countP_pos_iff.2 ⟨m, hmem, hup⟩
    have hget2 : ((((topicMapsOf (filterMessages q msgs)).2).get tid).getD []).get uid =
        some ((filterMessages q msgs).countP (isTopicUserMsg tid uid)) := by
      rw [topicMapsOf, foldl_topic_inner_get]
      exact optAdd_none_of_pos _ hcnt2
    have husers : (usersOf (filterMessages q msgs)).get uid = none := by
      rw [usersOf_get_eq_none_iff]
      intro m2 hm2 hcon
      have hst : strTruthy m2.fromUserName = true := by
        have h2 : idTruthy m2.fromUserId = true ∧ strTruthy m2.fromUserName = true := by
          simpa [eligibleMsg] using hcon.1
        exact h2.2
      exact hnoname m2 hm2 hcon.2 hst
    refine ⟨_, rfl, rfl, ?_, ?_, ?_⟩
    · intro hmemE
      rcases (mem_eligibleUserIdsOf _ _).1 hmemE with ⟨m2, hm2, he2, hid2⟩
      have hst : strTruthy m2.fromUserName = true := by
        have h2 : idTruthy m2.fromUserId = true ∧ strTruthy m2.fromUserName = true := by
          simpa [eligibleMsg] using he2
        exact h2.2
      exact hnoname m2 hm2 hid2 hst
    · rw [aggDataOf_activeUsers, usersOf_length]
    · have hmemT := topicsDataUnsortedOf_mem (extractTopicNames ((t.topics).getD []) c)
        (topicMapsOf (filterMessages q msgs)).1 (topicMapsOf (filterMessages q msgs)).2
        (usersOf (filterMessages q msgs)) tid _ hget
      have hmemT2 : topicDataEntry (extractTopicNames ((t.topics).getD []) c)
          (topicMapsOf (filterMessages q msgs)).2 (usersOf (filterMessages q msgs)) tid
          ((filterMessages q msgs).countP (isTopicMsg tid)) ∈
          (aggDataOf (extractTopicNames ((t.topics).getD []) c)
            (filterMessages q msgs)).topics := by
        rw [aggDataOf_topics]
        simp only [topicsDataOf]
        rw [mem_sortDescBy]
        exact hmemT
      have hmemC := contributorsUnsortedOf_mem_fallback (usersOf (filterMessages q msgs))
        ((((topicMapsOf (filterMessages q msgs)).2).get tid).getD []) uid _ hget2 husers
      have hmemC2 : fallbackContributor uid
          ((filterMessages q msgs).countP (isTopicUserMsg tid uid)) ∈
          contributorsOf (usersOf (filterMessages q msgs))
          ((((topicMapsOf (filterMessages q msgs)).2).get tid).getD []) := by
        rw [contributorsOf, mem_sortDescBy]
        exact hmemC
      exact ⟨_, hmemT2, rfl, rfl, hcnt, rfl, _, hmemC2, rfl, rfl, rfl⟩
  · exact ⟨_, rfl, by decide⟩

theorem c10_fallback_contributor_witness :
    ∃ d : AggData,
      (processTreeLocally (some { messages := some [msgOf 5 none 0] }) sampleQuery "v1"
          emptyCache "T").1.data = some d ∧
      d.messageCount = (filterMessages sampleQuery [msgOf 5 none 0]).length ∧
      (5 : Int) ∉ eligibleUserIdsOf (filterMessages sampleQuery [msgOf 5 none 0]) ∧
      d.activeUsers =
        (eligibleUserIdsOf (filterMessages sampleQuery [msgOf 5 none 0])).toFinset.card ∧
      ∃ tdrec ∈ d.topics, tdrec.id = (0 : Int) ∧
        tdrec.messageCount =
          (filterMessages sampleQuery [msgOf 5 none 0]).countP (isTopicMsg 0) ∧
        0 < tdrec.messageCount ∧
        tdrec.contributorCount = tdrec.contributors.length ∧
        ∃ contrib ∈ tdrec.contributors,
          contrib.userId = (5 : Int) ∧
          contrib.username = "@" ++ ("User " ++ toString (5 : Int)) ∧
          contrib.messageCount =
            (filterMessages sampleQuery [msgOf 5 none 0]).countP (isTopicUserMsg 0 5) :=
  c10_fallback_contributor.1 { messages := some [msgOf 5 none 0] } [msgOf 5 none 0] rfl
    sampleQuery "v1" "T" emptyCache (msgOf 5 none 0) 5 0 (by decide) rfl (by decide) rfl
    (by decide) (by decide)

end NLQ
